import Mathlib

/-!
ProtoGen: the `Encodable` contract, the keyword check, the factory, and the
predicates and bitfield chain of `ProtocolField`.

A shallow embedding of `src/encodable.cpp` and of the inline members of
`src/protocolfield.h`.  `QString` is `String`, `+` on `QString` is `++`,
`isEmpty()` is comparison with `""`, and `int` is `Int` (signed overflow is
undefined in C++, so `Int` describes every defined execution).
-/

namespace ProtoGen

/-- Modelled from the spec: the enumeration of target languages lives in
`protocolsupport.h`, which is not among the sources.  The code only ever
names `ProtocolSupport::c_language`; `cpp_language` stands for the targets
reached through the `else` branches ("Access via implicit class reference"). -/
inductive LanguageType where
  | c_language
  | cpp_language
  deriving DecidableEq, Repr

/-- The part of `ProtocolSupport` that `encodable.cpp` reads. -/
structure ProtocolSupport where
  language : LanguageType
  deriving DecidableEq, Repr

/-- Data members of `Encodable` that `encodable.cpp` reads and writes:
the protocol support and the strings listed by `Encodable::clear`.  The
member `encodedLength` is an object of a class declared in a header that is
not among the sources; only its identity matters here and it is held as a
string. -/
structure EncodableData where
  support : ProtocolSupport
  typeName : String
  name : String
  title : String
  comment : String
  array : String
  variableArray : String
  array2d : String
  variable2dArray : String
  encodedLength : String
  dependsOn : String
  dependsOnValue : String
  dependsOnCompare : String
  deriving DecidableEq, Repr

/-- An `Encodable` object as the generators of `encodable.cpp` see it: the
data members together with the answers of the predicates they call.
`isPrimitive`, `isString`, `isNotEncoded`, `isNotInMemory` and `isConstant`
are virtual and answered by the concrete variant; `isArray` and `is2dArray`
are declared in `encodable.h`, which is not among the sources, so their
answers are carried the same way. -/
structure Encodable extends EncodableData where
  isPrimitive : Bool
  isString : Bool
  isArray : Bool
  is2dArray : Bool
  isNotEncoded : Bool
  isNotInMemory : Bool
  isConstant : Bool
  deriving DecidableEq, Repr

namespace Encodable

/-- Embedding of `Encodable::getEncodeSignature`. -/
def getEncodeSignature (e : Encodable) : String :=
  if e.isNotEncoded || e.isNotInMemory || e.isConstant then
    ""
  else if e.is2dArray then
    ", const " ++ e.typeName ++ " " ++ e.name ++ "[" ++ e.array ++ "][" ++ e.array2d ++ "]"
  else if e.isArray then
    ", const " ++ e.typeName ++ " " ++ e.name ++ "[" ++ e.array ++ "]"
  else if e.isPrimitive then
    ", " ++ e.typeName ++ " " ++ e.name
  else
    ", const " ++ e.typeName ++ "* " ++ e.name

/-- Embedding of `Encodable::getDecodeSignature`. -/
def getDecodeSignature (e : Encodable) : String :=
  if e.isNotEncoded || e.isNotInMemory then
    ""
  else if e.is2dArray then
    ", " ++ e.typeName ++ " " ++ e.name ++ "[" ++ e.array ++ "][" ++ e.array2d ++ "]"
  else if e.isArray then
    ", " ++ e.typeName ++ " " ++ e.name ++ "[" ++ e.array ++ "]"
  else
    ", " ++ e.typeName ++ "* " ++ e.name

/-- Embedding of `Encodable::getEncodeParameterComment`. -/
def getEncodeParameterComment (e : Encodable) : String :=
  if e.isNotEncoded || e.isNotInMemory || e.isConstant then
    ""
  else
    " * \\param " ++ e.name ++ " is " ++ e.comment ++ "\n"

/-- Embedding of `Encodable::getDecodeParameterComment`. -/
def getDecodeParameterComment (e : Encodable) : String :=
  if e.isNotEncoded || e.isNotInMemory then
    ""
  else
    " * \\param " ++ e.name ++ " receives " ++ e.comment ++ "\n"

/-- Embedding of `Encodable::getEncodeFieldAccess(bool, const QString&)`. -/
def getEncodeFieldAccess (e : Encodable) (isStructureMember : Bool) (var : String) : String :=
  let access : String :=
    if isStructureMember then
      if e.support.language = LanguageType.c_language then
        "_pg_user->" ++ var
      else
        var
    else
      var
  if var = e.name then
    let access : String :=
      if e.isArray && !e.isString then
        let access := access ++ "[_pg_i]"
        if e.is2dArray then access ++ "[_pg_j]" else access
      else
        access
    if !e.isPrimitive && decide (e.support.language = LanguageType.c_language)
        && (isStructureMember || e.isArray) then
      "&" ++ access
    else
      access
  else
    access

/-- Embedding of `Encodable::getDecodeFieldAccess(bool, const QString&)`. -/
def getDecodeFieldAccess (e : Encodable) (isStructureMember : Bool) (var : String) : String :=
  if isStructureMember then
    let access : String :=
      if e.support.language = LanguageType.c_language then
        "_pg_user->" ++ var
      else
        var
    if var = e.name then
      let access : String :=
        if e.isArray && !e.isString then
          let access := access ++ "[_pg_i]"
          if e.is2dArray then access ++ "[_pg_j]" else access
        else
          access
      if !e.isPrimitive && decide (e.support.language = LanguageType.c_language) then
        "&" ++ access
      else
        access
    else
      access
  else
    if var = e.name then
      if e.isString then
        var
      else if e.isArray then
        let access : String := var ++ "[_pg_i]"
        let access : String := if e.is2dArray then access ++ "[_pg_j]" else access
        if !e.isPrimitive && decide (e.support.language = LanguageType.c_language) then
          "&" ++ access
        else
          access
      else if !e.isPrimitive then
        var
      else
        "(*" ++ var ++ ")"
    else
      "(*" ++ var ++ ")"

/-- Embedding of `Encodable::getEncodeFieldAccess(bool)`: the field accessed as itself. -/
def getEncodeFieldAccessSelf (e : Encodable) (isStructureMember : Bool) : String :=
  e.getEncodeFieldAccess isStructureMember e.name

/-- Embedding of `Encodable::getDecodeFieldAccess(bool)`: the field accessed as itself. -/
def getDecodeFieldAccessSelf (e : Encodable) (isStructureMember : Bool) : String :=
  e.getDecodeFieldAccess isStructureMember e.name

/-- Embedding of `Encodable::getEncodeArrayIterationCode`.  The constant `TAB_IN` is defined
in a header that is not among the sources; its text is the first argument. -/
def getEncodeArrayIterationCode (TAB_IN : String) (e : Encodable) (spacing : String)
    (isStructureMember : Bool) : String :=
  let output : String := ""
  if e.isArray then
    let output : String :=
      if e.variableArray = "" then
        output ++ (spacing ++ "for(_pg_i = 0; _pg_i < " ++ e.array ++ "; _pg_i++)\n")
      else
        output ++ (spacing ++ "for(_pg_i = 0; _pg_i < (unsigned)"
          ++ e.getEncodeFieldAccess isStructureMember e.variableArray
          ++ " && _pg_i < " ++ e.array ++ "; _pg_i++)\n")
    if e.is2dArray then
      if e.variable2dArray = "" then
        output ++ (spacing ++ TAB_IN ++ "for(_pg_j = 0; _pg_j < " ++ e.array2d ++ "; _pg_j++)\n")
      else
        output ++ (spacing ++ TAB_IN ++ "for(_pg_j = 0; _pg_j < (unsigned)"
          ++ e.getEncodeFieldAccess isStructureMember e.variable2dArray
          ++ " && _pg_j < " ++ e.array2d ++ "; _pg_j++)\n")
    else
      output
  else
    output

/-- Embedding of `Encodable::getDecodeArrayIterationCode`.  The constant `TAB_IN` is defined
in a header that is not among the sources; its text is the first argument. -/
def getDecodeArrayIterationCode (TAB_IN : String) (e : Encodable) (spacing : String)
    (isStructureMember : Bool) : String :=
  let output : String := ""
  if e.isArray then
    let output : String :=
      if e.variableArray = "" then
        output ++ (spacing ++ "for(_pg_i = 0; _pg_i < " ++ e.array ++ "; _pg_i++)\n")
      else
        output ++ (spacing ++ "for(_pg_i = 0; _pg_i < (unsigned)"
          ++ e.getDecodeFieldAccess isStructureMember e.variableArray
          ++ " && _pg_i < " ++ e.array ++ "; _pg_i++)\n")
    if e.is2dArray then
      if e.variable2dArray = "" then
        output ++ (spacing ++ TAB_IN ++ "for(_pg_j = 0; _pg_j < " ++ e.array2d ++ "; _pg_j++)\n")
      else
        output ++ (spacing ++ TAB_IN ++ "for(_pg_j = 0; _pg_j < (unsigned)"
          ++ e.getDecodeFieldAccess isStructureMember e.variable2dArray
          ++ " && _pg_j < " ++ e.array2d ++ "; _pg_j++)\n")
    else
      output
  else
    output

end Encodable

/-- Embedding of the class `TypeData` of `protocolfield.h` (data members). -/
structure TypeData where
  isBool : Bool
  isStruct : Bool
  isSigned : Bool
  isBitfield : Bool
  isFloat : Bool
  isEnum : Bool
  isString : Bool
  isFixedString : Bool
  isNull : Bool
  bits : Int
  sigbits : Int
  enummax : Int
  enumName : String
  deriving DecidableEq, Repr

/-- Embedding of the class `BitfieldData` of `protocolfield.h`. -/
structure BitfieldData where
  startingBitCount : Int
  groupBits : Int
  groupStart : Bool
  groupMember : Bool
  lastBitfield : Bool
  deriving DecidableEq, Repr

namespace BitfieldData

/-- Embedding of the constructor `BitfieldData::BitfieldData(void)`. -/
def new : BitfieldData :=
  { startingBitCount := 0, groupBits := 0, groupStart := false, groupMember := false,
    lastBitfield := true }

/-- Embedding of `BitfieldData::clear`. -/
def clear (_b : BitfieldData) : BitfieldData :=
  { startingBitCount := 0, groupBits := 0, groupStart := false, groupMember := false,
    lastBitfield := true }

end BitfieldData

/-- Embedding of the class `ProtocolField`: the members of its `Encodable`
base and those of its own members that the inline functions of
`protocolfield.h` read or write.  `isArray` and `is2dArray` carry the answers
of the base class predicates, declared in `encodable.h` (not among the
sources). -/
structure ProtocolField extends EncodableData where
  isArray : Bool
  is2dArray : Bool
  defaultString : String
  constantString : String
  overridesPrevious : Bool
  inMemoryType : TypeData
  encodedType : TypeData
  bitfieldData : BitfieldData
  hidden : Bool
  deriving DecidableEq, Repr

namespace ProtocolField

/-- Embedding of `ProtocolField::isPrimitive`. -/
def isPrimitive (f : ProtocolField) : Bool := !f.inMemoryType.isStruct

/-- Embedding of `ProtocolField::isString`. -/
def isString (f : ProtocolField) : Bool := f.inMemoryType.isString

/-- Embedding of `ProtocolField::isNotEncoded`. -/
def isNotEncoded (f : ProtocolField) : Bool := f.encodedType.isNull

/-- Embedding of `ProtocolField::isNotInMemory`. -/
def isNotInMemory (f : ProtocolField) : Bool := f.inMemoryType.isNull || f.overridesPrevious

/-- Embedding of `ProtocolField::isConstant`. -/
def isConstant (f : ProtocolField) : Bool :=
  !decide (f.constantString = "") || f.inMemoryType.isNull

/-- Embedding of `ProtocolField::isBitfield`. -/
def isBitfield (f : ProtocolField) : Bool := f.encodedType.isBitfield && !f.isNotEncoded

/-- Embedding of `ProtocolField::isDefault`. -/
def isDefault (f : ProtocolField) : Bool := !decide (f.defaultString = "")

/-- The `Encodable` view of a `ProtocolField`: the base members with the
virtual predicates answered by the overrides of `protocolfield.h`. -/
def toEncodable (f : ProtocolField) : Encodable :=
  { toEncodableData := f.toEncodableData
    isPrimitive := f.isPrimitive
    isString := f.isString
    isArray := f.isArray
    is2dArray := f.is2dArray
    isNotEncoded := f.isNotEncoded
    isNotInMemory := f.isNotInMemory
    isConstant := f.isConstant }

/-- Embedding of `ProtocolField::setStartingBitCount`.  The body of
`computeEncodedLength` ("Compute the encoded length string") is in
`protocolfield.cpp`, which is not among the sources: the string it computes
from the updated field is the parameter `computeEncodedLength`. -/
def setStartingBitCount (computeEncodedLength : ProtocolField → String)
    (f : ProtocolField) (bitcount : Int) : ProtocolField :=
  let f1 : ProtocolField :=
    { f with bitfieldData := { f.bitfieldData with startingBitCount := bitcount } }
  { f1 with encodedLength := computeEncodedLength f1 }

/-- Embedding of `ProtocolField::setTerminatesBitfield`, with the same
parameter for `computeEncodedLength` as `setStartingBitCount`. -/
def setTerminatesBitfield (computeEncodedLength : ProtocolField → String)
    (f : ProtocolField) (terminate : Bool) : ProtocolField :=
  let f1 : ProtocolField :=
    { f with bitfieldData := { f.bitfieldData with lastBitfield := terminate } }
  { f1 with encodedLength := computeEncodedLength f1 }

/-- Embedding of `ProtocolField::getEndingBitCount`. -/
def getEndingBitCount (f : ProtocolField) : Int :=
  f.bitfieldData.startingBitCount + f.encodedType.bits

end ProtocolField

namespace Encodable

/-- One block of `Encodable::checkAgainstKeywords`, which is
`if(list.contains(x)) { emitWarning(message); x = "_" + x; }`, acting on the
checked string `x` and on the warnings emitted so far.  `QStringList::contains`
is exact (case sensitive) membership.  `emitWarning` belongs to the base class
`ProtocolDocumentation`, which is not among the sources; its effect is held as
appending the message to the warning stream. -/
def checkName (list : List String) (message : String) (x : String) (warnings : List String) :
    String × List String :=
  if x ∈ list then ("_" ++ x, warnings ++ [message]) else (x, warnings)

/-- Embedding of `Encodable::checkAgainstKeywords`: the seven checks against
the keyword list followed by the seven checks against the list of ProtoGen
variable names, in the order of the source.  The two lists are static members
declared in a header that is not among the sources; they are parameters.  The
result is the updated data members and the warnings emitted, in order. -/
def checkAgainstKeywords (keywords variablenames : List String) (e : EncodableData) :
    EncodableData × List String :=
  let warnings0 : List String := []
  let r1 := checkName keywords "name matches C keyword, changed to _name" e.name warnings0
  let r2 := checkName keywords "array matches C keyword, changed to _array" e.array r1.2
  let r3 := checkName keywords "variableArray matches C keyword, changed to _variableArray" e.variableArray r2.2
  let r4 := checkName keywords "array2d matches C keyword, changed to _array2d" e.array2d r3.2
  let r5 := checkName keywords "variable2dArray matches C keyword, changed to _variable2dArray" e.variable2dArray r4.2
  let r6 := checkName keywords "dependsOn matches C keyword, changed to _dependsOn" e.dependsOn r5.2
  let r7 := checkName keywords "dependsOnValue matches C keyword, changed to _dependsOnValue" e.dependsOnValue r6.2
  let r8 := checkName variablenames "name matches ProtoGen variable, changed to _name" r1.1 r7.2
  let r9 := checkName variablenames "array matches ProtoGen variable, changed to _array" r2.1 r8.2
  let r10 := checkName variablenames "variableArray matches ProtoGen variable, changed to _variableArray" r3.1 r9.2
  let r11 := checkName variablenames "array2d matches ProtoGen variable, changed to _array2d" r4.1 r10.2
  let r12 := checkName variablenames "variable2dArray matches ProtoGen variable, changed to _variable2dArray" r5.1 r11.2
  let r13 := checkName variablenames "dependsOn matches ProtoGen variable, changed to _dependsOn" r6.1 r12.2
  let r14 := checkName variablenames "dependsOnValue matches ProtoGen variable, changed to _dependsOnValue" r7.1 r13.2
  ({ e with
      name := r8.1, array := r9.1, variableArray := r10.1, array2d := r11.1,
      variable2dArray := r12.1, dependsOn := r13.1, dependsOnValue := r14.1 },
    r14.2)

/-- Embedding of `Encodable::getReturnCode`. -/
def getReturnCode (e : Encodable) (positive : Bool) : String :=
  if positive then
    if e.support.language = LanguageType.c_language then "1" else "true"
  else
    if e.support.language = LanguageType.c_language then "0" else "false"

/-- The concrete class of the object that `Encodable::generateEncodable`
allocates. -/
inductive Variant where
  | protocolStructure
  | protocolField
  | protocolCode
  deriving DecidableEq, Repr

/-- Embedding of `QString::contains(str, Qt::CaseInsensitive)`: `str` occurs
in `s` as a contiguous run of characters once both are case folded character
by character.  The case folding of a character is Qt's; it is the parameter
`foldCase`. -/
def containsCaseInsensitive (foldCase : Char → Char) (s str : String) : Bool :=
  decide ((str.data.map foldCase) <:+: (s.data.map foldCase))

/-- Embedding of `Encodable::generateEncodable`, as a function of the tag name
of the DOM element: `none` is the `NULL` pointer, `some v` an object of class
`v`.  The calls `setElement` and `parse` on the new object act on its members
and change neither the pointer nor the class of the object. -/
def generateEncodable (foldCase : Char → Char) (tagName : String) : Option Variant :=
  if containsCaseInsensitive foldCase tagName "Structure" then
    some Variant.protocolStructure
  else if containsCaseInsensitive foldCase tagName "Data" then
    some Variant.protocolField
  else if containsCaseInsensitive foldCase tagName "Code" then
    some Variant.protocolCode
  else
    none

end Encodable

namespace ProtocolField

/-- Embedding of `ProtocolField::usesDefaults`. -/
def usesDefaults (f : ProtocolField) : Bool := f.isDefault && !f.isNotEncoded

/-- Embedding of `ProtocolField::clearDefaults`. -/
def clearDefaults (f : ProtocolField) : ProtocolField := { f with defaultString := "" }

/-- Embedding of `ProtocolField::overridesPreviousEncodable`. -/
def overridesPreviousEncodable (f : ProtocolField) : Bool := f.overridesPrevious

/-- Embedding of `ProtocolField::clearOverridesPrevious`. -/
def clearOverridesPrevious (f : ProtocolField) : ProtocolField :=
  { f with overridesPrevious := false }

/-- Embedding of `ProtocolField::invalidatesPreviousDefault`. -/
def invalidatesPreviousDefault (f : ProtocolField) : Bool :=
  !f.inMemoryType.isNull && !f.usesDefaults && !f.overridesPrevious

end ProtocolField

/-- Modelled from the spec: the pass that closes a bitfield run and
back-patches its members is in `protocolfield.cpp`, which is not among the
sources.  Per the spec (section 4.2) closing sets `groupBits` of every member
of the run to the smallest byte-aligned width that is at least the total
accumulated bits; the accumulated total is the ending bit count of the last
member of the run. -/
def closeBitfieldRun (run : List ProtocolField) : List ProtocolField :=
  match run.getLast? with
  | none => []
  | some last =>
    run.map (fun f =>
      { f with bitfieldData :=
          { f.bitfieldData with groupBits := (last.getEndingBitCount + 7) / 8 * 8 } })

namespace ProtocolField

/-- Embedding of `ProtocolField::usesEncodeIterator`. -/
def usesEncodeIterator (f : ProtocolField) : Bool :=
  f.isArray && !f.isNotEncoded && !f.inMemoryType.isString

/-- Embedding of `ProtocolField::usesDecodeIterator`. -/
def usesDecodeIterator (f : ProtocolField) : Bool :=
  f.isArray && !f.inMemoryType.isNull && !f.isNotEncoded && !f.inMemoryType.isString

/-- Embedding of `ProtocolField::uses2ndEncodeIterator`. -/
def uses2ndEncodeIterator (f : ProtocolField) : Bool :=
  f.is2dArray && !f.isNotEncoded && !f.inMemoryType.isString

/-- Embedding of `ProtocolField::uses2ndDecodeIterator`. -/
def uses2ndDecodeIterator (f : ProtocolField) : Bool :=
  f.is2dArray && !f.inMemoryType.isNull && !f.isNotEncoded && !f.inMemoryType.isString

end ProtocolField

namespace Encodable

/-- Embedding of `Encodable::getRepeatsDocumentationDetails`.  The lookup
`parser->getEnumerationNameForEnumValue` belongs to `ProtocolParser`, which is
not among the sources; it is the parameter `getEnumerationNameForEnumValue`. -/
def getRepeatsDocumentationDetails (getEnumerationNameForEnumValue : String → String)
    (e : Encodable) : String :=
  let repeats : String := "1"
  let arrayLink : String := ""
  let array2dLink : String := ""
  let variableArrayLink : String := ""
  let variable2dArrayLink : String := ""
  let arrayLink : String :=
    if e.isArray then
      let arrayLink := getEnumerationNameForEnumValue e.array
      if arrayLink = "" then e.array else "[" ++ e.array ++ "](#" ++ arrayLink ++ ")"
    else
      arrayLink
  let variableArrayLink : String :=
    if e.isArray then
      let variableArrayLink :=
        if e.variableArray = "" then getEnumerationNameForEnumValue e.variableArray
        else variableArrayLink
      if variableArrayLink = "" then e.variableArray
      else "[" ++ e.variableArray ++ "](#" ++ variableArrayLink ++ ")"
    else
      variableArrayLink
  let array2dLink : String :=
    if e.is2dArray then
      let array2dLink := getEnumerationNameForEnumValue e.array2d
      if array2dLink = "" then e.array2d else "[" ++ e.array2d ++ "](#" ++ array2dLink ++ ")"
    else
      array2dLink
  let variable2dArrayLink : String :=
    if e.is2dArray then
      let variable2dArrayLink :=
        if e.variable2dArray = "" then getEnumerationNameForEnumValue e.variable2dArray
        else variable2dArrayLink
      if variable2dArrayLink = "" then e.variable2dArray
      else "[" ++ e.variable2dArray ++ "](#" ++ variable2dArrayLink ++ ")"
    else
      variable2dArrayLink
  if e.is2dArray then
    if e.variableArray = "" ∧ e.variable2dArray = "" then
      arrayLink ++ "*" ++ array2dLink
    else
      variableArrayLink ++ "*" ++ variable2dArrayLink ++ ", up to " ++ arrayLink ++ "*"
        ++ array2dLink
  else if e.isArray then
    if e.variableArray = "" then
      arrayLink
    else
      variableArrayLink ++ ", up to " ++ arrayLink
  else
    repeats

end Encodable

/-! ## Sample objects -/

/-- A sample enumeration lookup: `N` and `M` are values of the enumeration
`Sizes`, no other name is an enumeration value. -/
def sampleEnumLookup (value : String) : String :=
  if value = "N" ∨ value = "M" then "Sizes" else ""

/-- A sample enumeration lookup that knows no enumeration value. -/
def sampleNoEnumLookup (_value : String) : String := ""

/-- A sample aggregate field `Date_t date` for the given target language:
not primitive, not a string, not an array. -/
def sampleAggregate (lang : LanguageType) : Encodable :=
  { support := ⟨lang⟩, typeName := "Date_t", name := "date", title := "", comment := "the date",
    array := "", variableArray := "", array2d := "", variable2dArray := "",
    encodedLength := "", dependsOn := "", dependsOnValue := "", dependsOnCompare := "",
    isPrimitive := false, isString := false, isArray := false, is2dArray := false,
    isNotEncoded := false, isNotInMemory := false, isConstant := false }

/-- A sample array field `typeName name[array][array2d]` for the C language,
with the given bounds; it is a 2D array exactly when `twoD` is set. -/
def sampleArray (primitive twoD : Bool) (variableArray variable2dArray : String) : Encodable :=
  { support := ⟨LanguageType.c_language⟩, typeName := "uint8_t", name := "data", title := "",
    comment := "the data", array := "10", variableArray := variableArray, array2d := "4",
    variable2dArray := variable2dArray, encodedLength := "", dependsOn := "",
    dependsOnValue := "", dependsOnCompare := "",
    isPrimitive := primitive, isString := false, isArray := true, is2dArray := twoD,
    isNotEncoded := false, isNotInMemory := false, isConstant := false }

/-- A sample `TypeData` for an unsigned bitfield of the given width. -/
def sampleBitfieldType (bits : Int) : TypeData :=
  { isBool := false, isStruct := false, isSigned := false, isBitfield := true, isFloat := false,
    isEnum := false, isString := false, isFixedString := false, isNull := false,
    bits := bits, sigbits := 0, enummax := 0, enumName := "" }

/-- A sample bitfield `ProtocolField` of the given name and encoded width, as
constructed: its `BitfieldData` is the freshly constructed one. -/
def sampleBitfield (name : String) (bits : Int) : ProtocolField :=
  { support := ⟨LanguageType.c_language⟩, typeName := "unsigned", name := name, title := "",
    comment := "", array := "", variableArray := "", array2d := "", variable2dArray := "",
    encodedLength := "", dependsOn := "", dependsOnValue := "", dependsOnCompare := "",
    isArray := false, is2dArray := false, defaultString := "", constantString := "",
    overridesPrevious := false, inMemoryType := sampleBitfieldType bits,
    encodedType := sampleBitfieldType bits, bitfieldData := BitfieldData.new, hidden := false }

/-- A sample stand-in for `computeEncodedLength`: the number of bytes touched
by the bitfield, as text. -/
def sampleComputeEncodedLength (f : ProtocolField) : String :=
  toString ((f.bitfieldData.startingBitCount + f.encodedType.bits + 7) / 8)

/-- A sample keyword list: a few reserved words of C. -/
def sampleKeywords : List String := ["int", "for", "while", "struct"]

/-- A sample list of ProtoGen variable names: the loop indices and the byte
index of the generated code. -/
def sampleVariablenames : List String := ["_pg_i", "_pg_j", "_pg_byteindex"]

/-- Sample data members: a field named `int` whose array bound is named
`_pg_i` and whose other names collide with nothing. -/
def sampleKeywordData : EncodableData :=
  { support := ⟨LanguageType.c_language⟩, typeName := "uint8_t", name := "int", title := "",
    comment := "", array := "_pg_i", variableArray := "count", array2d := "", variable2dArray := "",
    encodedLength := "", dependsOn := "", dependsOnValue := "", dependsOnCompare := "" }

/-- A sample `TypeData` for an unsigned 8 bit integer. -/
def sampleUnsignedType : TypeData :=
  { isBool := false, isStruct := false, isSigned := false, isBitfield := false, isFloat := false,
    isEnum := false, isString := false, isFixedString := false, isNull := false,
    bits := 8, sigbits := 0, enummax := 0, enumName := "" }

/-- A sample `ProtocolField` of type `uint8_t`, encoded and in memory, with the
given default string, constant string and override flag. -/
def sampleField (defaultString constantString : String) (overridesPrevious : Bool) :
    ProtocolField :=
  { support := ⟨LanguageType.c_language⟩, typeName := "uint8_t", name := "mode", title := "",
    comment := "the mode", array := "", variableArray := "", array2d := "", variable2dArray := "",
    encodedLength := "1", dependsOn := "", dependsOnValue := "", dependsOnCompare := "",
    isArray := false, is2dArray := false, defaultString := defaultString,
    constantString := constantString, overridesPrevious := overridesPrevious,
    inMemoryType := sampleUnsignedType, encodedType := sampleUnsignedType,
    bitfieldData := BitfieldData.new, hidden := false }

/-- A sample array `ProtocolField` named `data`, encoded and in memory, of
type `uint8_t`, two-dimensional when `twoD` is set. -/
def sampleArrayField (twoD : Bool) : ProtocolField :=
  { support := ⟨LanguageType.c_language⟩, typeName := "uint8_t", name := "data", title := "",
    comment := "the data", array := "10", variableArray := "", array2d := "4",
    variable2dArray := "", encodedLength := "", dependsOn := "", dependsOnValue := "",
    dependsOnCompare := "", isArray := true, is2dArray := twoD, defaultString := "",
    constantString := "", overridesPrevious := false, inMemoryType := sampleUnsignedType,
    encodedType := sampleUnsignedType, bitfieldData := BitfieldData.new, hidden := false }


/-! ## Execution of an emitted loop -/

/-- Execution model of the loop that the array iteration code emits for one
dimension, `for(i = 0; i < (unsigned)count && i < array; i++)`: the list of
indices for which the body runs, where `count` and `array` are the values the
two bounds evaluate to (as unsigned numbers) and `i` is the current index.
Every evaluation of the loop condition uses one unit of fuel; the result is
`none` when the fuel runs out before the condition fails. -/
def clampedLoopIndices (count array : Nat) : Nat → Nat → Option (List Nat)
  | 0, _ => none
  | fuel + 1, i =>
    if i < count ∧ i < array then
      (clampedLoopIndices count array fuel (i + 1)).map (fun rest => i :: rest)
    else
      some []

/-! ## Properties of the accessors -/

section Accessors

open Encodable

/-- Claim C1 as stated fails outside the C language: for the C++ target the
aggregate member `date` is accessed as `date`, which does not begin with
an ampersand, in both the encode and the decode accessor. -/
theorem aggregate_member_access_cpp_no_address :
    (sampleAggregate LanguageType.cpp_language).isPrimitive = false
      ∧ (sampleAggregate LanguageType.cpp_language).isArray = false
      ∧ getEncodeFieldAccessSelf (sampleAggregate LanguageType.cpp_language) true = "date"
      ∧ getDecodeFieldAccessSelf (sampleAggregate LanguageType.cpp_language) true = "date"
      ∧ ¬ ("&".data <+:
          (getEncodeFieldAccessSelf (sampleAggregate LanguageType.cpp_language) true).data)
      ∧ ¬ ("&".data <+:
          (getDecodeFieldAccessSelf (sampleAggregate LanguageType.cpp_language) true).data) := by
  decide

/-- Claim C1, amended: for every aggregate (non-primitive) non-array field,
when the target language is C the structure-member accessors take the address
(they are `&_pg_user->name`, hence begin with an ampersand); for any other
target language they are the bare name; the free-parameter accessors are the
bare name for every target language. -/
theorem aggregate_access_member_vs_parameter (e : Encodable)
    (hP : e.isPrimitive = false) (hA : e.isArray = false) :
    (e.support.language = LanguageType.c_language →
        getEncodeFieldAccessSelf e true = "&" ++ ("_pg_user->" ++ e.name)
        ∧ getDecodeFieldAccessSelf e true = "&" ++ ("_pg_user->" ++ e.name)
        ∧ "&".data <+: (getEncodeFieldAccessSelf e true).data
        ∧ "&".data <+: (getDecodeFieldAccessSelf e true).data)
      ∧ (e.support.language ≠ LanguageType.c_language →
        getEncodeFieldAccessSelf e true = e.name ∧ getDecodeFieldAccessSelf e true = e.name)
      ∧ getEncodeFieldAccessSelf e false = e.name
      ∧ getDecodeFieldAccessSelf e false = e.name := by
  refine ⟨fun hC => ?_, fun hC => ?_, ?_, ?_⟩
  · have hE : getEncodeFieldAccessSelf e true = "&" ++ ("_pg_user->" ++ e.name) := by
      simp [getEncodeFieldAccessSelf, getEncodeFieldAccess, hP, hA, hC]
    have hD : getDecodeFieldAccessSelf e true = "&" ++ ("_pg_user->" ++ e.name) := by
      simp [getDecodeFieldAccessSelf, getDecodeFieldAccess, hP, hA, hC]
    refine ⟨hE, hD, ?_, ?_⟩
    · rw [hE, String.data_append]; exact List.prefix_append _ _
    · rw [hD, String.data_append]; exact List.prefix_append _ _
  · constructor
    · simp [getEncodeFieldAccessSelf, getEncodeFieldAccess, hP, hA, hC]
    · simp [getDecodeFieldAccessSelf, getDecodeFieldAccess, hP, hA, hC]
  · simp [getEncodeFieldAccessSelf, getEncodeFieldAccess, hP, hA]
  · cases hS : e.isString <;>
      simp [getDecodeFieldAccessSelf, getDecodeFieldAccess, hP, hA, hS]

/-- Witness for `aggregate_access_member_vs_parameter` at the C aggregate
`Date_t date`. -/
theorem aggregate_access_member_vs_parameter_witness :
    (sampleAggregate LanguageType.c_language).isPrimitive = false
      ∧ (sampleAggregate LanguageType.c_language).isArray = false
      ∧ getEncodeFieldAccessSelf (sampleAggregate LanguageType.c_language) true
          = "&_pg_user->date"
      ∧ getDecodeFieldAccessSelf (sampleAggregate LanguageType.c_language) false = "date" :=
  ⟨by decide, by decide,
    ((aggregate_access_member_vs_parameter (sampleAggregate LanguageType.c_language)
      (by decide) (by decide)).1 (by decide)).1,
    (aggregate_access_member_vs_parameter (sampleAggregate LanguageType.c_language)
      (by decide) (by decide)).2.2.2⟩

/-- Claim C2: in the C language, for a non-string field accessed as itself,
both accessors prepend an ampersand to the access expression exactly when the
field is not primitive and (it is a structure member or an array): the result
is the ampersand followed by the unaddressed expression in that case, and the
unaddressed expression alone otherwise.  In particular an aggregate 1D array
element reached as a free parameter is `&name[_pg_i]`, and a non-array
aggregate free parameter is `name`. -/
theorem c_access_address_of_iff (e : Encodable) (m : Bool)
    (hC : e.support.language = LanguageType.c_language) (hS : e.isString = false) :
    getEncodeFieldAccess e m e.name
        = (if e.isPrimitive = false ∧ (m = true ∨ e.isArray = true) then "&" else "")
          ++ ((if m = true then "_pg_user->" else "") ++ e.name
              ++ (if e.isArray = true then
                    (if e.is2dArray = true then "[_pg_i][_pg_j]" else "[_pg_i]")
                  else ""))
      ∧ getDecodeFieldAccess e m e.name
        = (if e.isPrimitive = false ∧ (m = true ∨ e.isArray = true) then "&" else "")
          ++ (if m = false ∧ e.isArray = false ∧ e.isPrimitive = true then
                "(*" ++ e.name ++ ")"
              else
                (if m = true then "_pg_user->" else "") ++ e.name
                  ++ (if e.isArray = true then
                        (if e.is2dArray = true then "[_pg_i][_pg_j]" else "[_pg_i]")
                      else ""))
      ∧ (e.isPrimitive = false ∧ (m = true ∨ e.isArray = true) →
          "&".data <+: (getEncodeFieldAccess e m e.name).data
          ∧ "&".data <+: (getDecodeFieldAccess e m e.name).data)
      ∧ (e.isPrimitive = false → e.isArray = true → e.is2dArray = false →
          getEncodeFieldAccess e false e.name = "&" ++ e.name ++ "[_pg_i]"
          ∧ getDecodeFieldAccess e false e.name = "&" ++ e.name ++ "[_pg_i]")
      ∧ (e.isPrimitive = false → e.isArray = false →
          getEncodeFieldAccess e false e.name = e.name
          ∧ getDecodeFieldAccess e false e.name = e.name) := by
  have hE : getEncodeFieldAccess e m e.name
        = (if e.isPrimitive = false ∧ (m = true ∨ e.isArray = true) then "&" else "")
          ++ ((if m = true then "_pg_user->" else "") ++ e.name
              ++ (if e.isArray = true then
                    (if e.is2dArray = true then "[_pg_i][_pg_j]" else "[_pg_i]")
                  else "")) := by
    cases m <;> cases hP : e.isPrimitive <;> cases hA : e.isArray <;> cases h2 : e.is2dArray <;>
      simp [getEncodeFieldAccess, hC, hS, hP, hA, h2, String.append_assoc]
  have hD : getDecodeFieldAccess e m e.name
        = (if e.isPrimitive = false ∧ (m = true ∨ e.isArray = true) then "&" else "")
          ++ (if m = false ∧ e.isArray = false ∧ e.isPrimitive = true then
                "(*" ++ e.name ++ ")"
              else
                (if m = true then "_pg_user->" else "") ++ e.name
                  ++ (if e.isArray = true then
                        (if e.is2dArray = true then "[_pg_i][_pg_j]" else "[_pg_i]")
                      else "")) := by
    cases m <;> cases hP : e.isPrimitive <;> cases hA : e.isArray <;> cases h2 : e.is2dArray <;>
      simp [getDecodeFieldAccess, hC, hS, hP, hA, h2, String.append_assoc]
  refine ⟨hE, hD, ?_, ?_, ?_⟩
  · intro hcond
    constructor
    · rw [hE, if_pos hcond, String.data_append]; exact List.prefix_append _ _
    · rw [hD, if_pos hcond, String.data_append]; exact List.prefix_append _ _
  · intro hP hA h2
    constructor
    · simp [getEncodeFieldAccess, hC, hS, hP, hA, h2, String.append_assoc]
    · simp [getDecodeFieldAccess, hC, hS, hP, hA, h2, String.append_assoc]
  · intro hP hA
    constructor
    · simp [getEncodeFieldAccess, hC, hS, hP, hA]
    · simp [getDecodeFieldAccess, hC, hS, hP, hA]

/-- Witness for `c_access_address_of_iff`: the aggregate 1D array `data`
reached as a free parameter in C is `&data[_pg_i]` for encode and decode. -/
theorem c_access_address_of_iff_witness :
    (sampleArray false false "" "").support.language = LanguageType.c_language
      ∧ (sampleArray false false "" "").isString = false
      ∧ getEncodeFieldAccess (sampleArray false false "" "") false "data" = "&data[_pg_i]"
      ∧ getDecodeFieldAccess (sampleArray false false "" "") false "data" = "&data[_pg_i]" :=
  ⟨by decide, by decide,
    ((c_access_address_of_iff (sampleArray false false "" "") false (by decide)
      (by decide)).2.2.2.1 (by decide) (by decide) (by decide)).1,
    ((c_access_address_of_iff (sampleArray false false "" "") false (by decide)
      (by decide)).2.2.2.1 (by decide) (by decide) (by decide)).2⟩

/-- Claim C3: for every field, both values of `isStructureMember` and both
accessors (a 2D array being an array): accessed as itself, a non-string 1D
array is the name followed by exactly `[_pg_i]`, a non-string 2D array is the
name followed by `[_pg_i][_pg_j]`, and a string field is the name with no
index suffix even if it is an array (in each case behind the structure
pointer of a C member and a possible ampersand); accessed through another
variable, the result has neither an index suffix nor an ampersand. -/
theorem access_index_suffix_per_dimension (e : Encodable) (m : Bool)
    (h2d : e.is2dArray = true → e.isArray = true) :
    (e.isString = false → e.isArray = true → e.is2dArray = false →
        (∃ amp, (amp = "" ∨ amp = "&") ∧ getEncodeFieldAccess e m e.name
          = amp ++ ((if m = true ∧ e.support.language = LanguageType.c_language
                      then "_pg_user->" else "") ++ e.name ++ "[_pg_i]"))
        ∧ (∃ amp, (amp = "" ∨ amp = "&") ∧ getDecodeFieldAccess e m e.name
          = amp ++ ((if m = true ∧ e.support.language = LanguageType.c_language
                      then "_pg_user->" else "") ++ e.name ++ "[_pg_i]")))
      ∧ (e.isString = false → e.is2dArray = true →
        (∃ amp, (amp = "" ∨ amp = "&") ∧ getEncodeFieldAccess e m e.name
          = amp ++ ((if m = true ∧ e.support.language = LanguageType.c_language
                      then "_pg_user->" else "") ++ e.name ++ "[_pg_i][_pg_j]"))
        ∧ (∃ amp, (amp = "" ∨ amp = "&") ∧ getDecodeFieldAccess e m e.name
          = amp ++ ((if m = true ∧ e.support.language = LanguageType.c_language
                      then "_pg_user->" else "") ++ e.name ++ "[_pg_i][_pg_j]")))
      ∧ (e.isString = true →
        (∃ amp, (amp = "" ∨ amp = "&") ∧ getEncodeFieldAccess e m e.name
          = amp ++ ((if m = true ∧ e.support.language = LanguageType.c_language
                      then "_pg_user->" else "") ++ e.name))
        ∧ (∃ amp, (amp = "" ∨ amp = "&") ∧ getDecodeFieldAccess e m e.name
          = amp ++ ((if m = true ∧ e.support.language = LanguageType.c_language
                      then "_pg_user->" else "") ++ e.name)))
      ∧ (∀ v : String, v ≠ e.name →
        getEncodeFieldAccess e m v
          = (if m = true ∧ e.support.language = LanguageType.c_language
              then "_pg_user->" else "") ++ v
        ∧ getDecodeFieldAccess e m v
          = (if m = true then
              (if e.support.language = LanguageType.c_language then "_pg_user->" else "") ++ v
             else "(*" ++ v ++ ")")) := by
  refine ⟨fun hS hA h2 => ?_, fun hS h2 => ?_, fun hS => ?_, fun v hv => ?_⟩
  · constructor
    · by_cases hamp : (!e.isPrimitive
          && decide (e.support.language = LanguageType.c_language) && (m || e.isArray)) = true
      · refine ⟨"&", Or.inr rfl, ?_⟩
        cases m <;> cases hL : e.support.language <;>
          simp_all [getEncodeFieldAccess, String.append_assoc]
      · refine ⟨"", Or.inl rfl, ?_⟩
        cases m <;> cases hL : e.support.language <;>
          simp_all [getEncodeFieldAccess, String.append_assoc]
    · by_cases hamp : (!e.isPrimitive
          && decide (e.support.language = LanguageType.c_language)) = true
      · refine ⟨"&", Or.inr rfl, ?_⟩
        cases m <;> cases hL : e.support.language <;>
          simp_all [getDecodeFieldAccess, String.append_assoc]
      · refine ⟨"", Or.inl rfl, ?_⟩
        cases m <;> cases hL : e.support.language <;>
          simp_all [getDecodeFieldAccess, String.append_assoc]
  · have hA := h2d h2
    constructor
    · by_cases hamp : (!e.isPrimitive
          && decide (e.support.language = LanguageType.c_language) && (m || e.isArray)) = true
      · refine ⟨"&", Or.inr rfl, ?_⟩
        cases m <;> cases hL : e.support.language <;>
          simp_all [getEncodeFieldAccess, String.append_assoc]
      · refine ⟨"", Or.inl rfl, ?_⟩
        cases m <;> cases hL : e.support.language <;>
          simp_all [getEncodeFieldAccess, String.append_assoc]
    · by_cases hamp : (!e.isPrimitive
          && decide (e.support.language = LanguageType.c_language)) = true
      · refine ⟨"&", Or.inr rfl, ?_⟩
        cases m <;> cases hL : e.support.language <;>
          simp_all [getDecodeFieldAccess, String.append_assoc]
      · refine ⟨"", Or.inl rfl, ?_⟩
        cases m <;> cases hL : e.support.language <;>
          simp_all [getDecodeFieldAccess, String.append_assoc]
  · constructor
    · by_cases hamp : (!e.isPrimitive
          && decide (e.support.language = LanguageType.c_language) && (m || e.isArray)) = true
      · refine ⟨"&", Or.inr rfl, ?_⟩
        cases m <;> cases hL : e.support.language <;>
          simp_all [getEncodeFieldAccess, String.append_assoc]
      · refine ⟨"", Or.inl rfl, ?_⟩
        cases m <;> cases hL : e.support.language <;>
          simp_all [getEncodeFieldAccess, String.append_assoc]
    · by_cases hamp : (m && !e.isPrimitive
          && decide (e.support.language = LanguageType.c_language)) = true
      · refine ⟨"&", Or.inr rfl, ?_⟩
        cases m <;> cases hL : e.support.language <;>
          simp_all [getDecodeFieldAccess, String.append_assoc]
      · refine ⟨"", Or.inl rfl, ?_⟩
        cases m <;> cases hL : e.support.language <;>
          simp_all [getDecodeFieldAccess, String.append_assoc]
  · constructor
    · cases m <;> cases hL : e.support.language <;>
        simp [getEncodeFieldAccess, hv, hL]
    · cases m <;> cases hL : e.support.language <;>
        simp [getDecodeFieldAccess, hv, hL]

/-- Witness for `access_index_suffix_per_dimension`: through the bound
variable `count`, the primitive 2D array `data` (a C structure member) gives
`_pg_user->count` for encode and decode. -/
theorem access_index_suffix_per_dimension_witness :
    ((sampleArray true true "count" "").is2dArray = true
        → (sampleArray true true "count" "").isArray = true)
      ∧ getEncodeFieldAccess (sampleArray true true "count" "") true "count" = "_pg_user->count"
      ∧ getDecodeFieldAccess (sampleArray true true "count" "") true "count"
          = "_pg_user->count" :=
  ⟨by decide,
    ((access_index_suffix_per_dimension (sampleArray true true "count" "") true
      (by decide)).2.2.2 "count" (by decide)).1,
    ((access_index_suffix_per_dimension (sampleArray true true "count" "") true
      (by decide)).2.2.2 "count" (by decide)).2⟩

end Accessors

/-! ## Properties of the array iteration code -/

section Iteration

open Encodable

/-- With enough fuel the emitted loop terminates, having visited the indices
from `i` up to the lesser of the two bounds. -/
theorem clampedLoopIndices_eq_range (count array : Nat) :
    ∀ (fuel i : Nat), min count array - i < fuel →
      clampedLoopIndices count array fuel i = some (List.range' i (min count array - i)) := by
  intro fuel
  induction fuel with
  | zero => intro i h; omega
  | succ fuel ih =>
    intro i h
    by_cases hc : i < count ∧ i < array
    · have hlt : i < min count array := lt_min hc.1 hc.2
      have hstep : min count array - i = (min count array - (i + 1)) + 1 := by omega
      rw [clampedLoopIndices, if_pos hc, ih (i + 1) (by omega), hstep]
      simp [List.range'_succ]
    · have hge : min count array ≤ i := by
        rcases not_and_or.mp hc with h1 | h1
        · exact le_trans (min_le_left _ _) (not_lt.mp h1)
        · exact le_trans (min_le_right _ _) (not_lt.mp h1)
      rw [clampedLoopIndices, if_neg hc, Nat.sub_eq_zero_of_le hge]
      simp

/-- Whatever the fuel, a run of the emitted loop that terminates has visited
the indices from `i` up to the lesser of the two bounds. -/
theorem clampedLoopIndices_some (count array : Nat) :
    ∀ (fuel i : Nat) (visited : List Nat),
      clampedLoopIndices count array fuel i = some visited →
      visited = List.range' i (min count array - i) := by
  intro fuel
  induction fuel with
  | zero => intro i visited h; simp [clampedLoopIndices] at h
  | succ fuel ih =>
    intro i visited h
    by_cases hc : i < count ∧ i < array
    · have hlt : i < min count array := lt_min hc.1 hc.2
      have hstep : min count array - i = (min count array - (i + 1)) + 1 := by omega
      rw [clampedLoopIndices, if_pos hc] at h
      cases hrec : clampedLoopIndices count array fuel (i + 1) with
      | none => simp [hrec] at h
      | some rest =>
        simp [hrec] at h
        rw [← h, ih (i + 1) rest hrec, hstep]
        simp [List.range'_succ]
    · have hge : min count array ≤ i := by
        rcases not_and_or.mp hc with h1 | h1
        · exact le_trans (min_le_left _ _) (not_lt.mp h1)
        · exact le_trans (min_le_right _ _) (not_lt.mp h1)
      rw [clampedLoopIndices, if_neg hc] at h
      rw [Nat.sub_eq_zero_of_le hge]
      simpa using h.symm

/-- Claim C4: for an array field with a non-empty `variableArray`, the first
line of the decode (and of the encode) iteration code is `spacing`, then
`for(_pg_i = 0; _pg_i < (unsigned)`, the decode (encode) access to
`variableArray`, ` && _pg_i < `, `array`, `; _pg_i++)` and a line feed, and
nothing follows it unless the field is a 2D array.  The loop condition is the
conjunction of the runtime count and the fixed maximum: with enough fuel the
loop terminates after visiting exactly the indices below `min count array`,
every visited index is below `array`, and with `array = 10` and a runtime
count of 15 the body runs for the indices 0 to 9 only. -/
theorem variable_array_loop_is_clamped (TAB_IN spacing : String) (e : Encodable) (m : Bool)
    (hA : e.isArray = true) (hV : e.variableArray ≠ "") :
    (∃ rest, getDecodeArrayIterationCode TAB_IN e spacing m
        = spacing ++ "for(_pg_i = 0; _pg_i < (unsigned)"
            ++ getDecodeFieldAccess e m e.variableArray
            ++ " && _pg_i < " ++ e.array ++ "; _pg_i++)\n" ++ rest
        ∧ (e.is2dArray = false → rest = ""))
      ∧ (∃ rest, getEncodeArrayIterationCode TAB_IN e spacing m
        = spacing ++ "for(_pg_i = 0; _pg_i < (unsigned)"
            ++ getEncodeFieldAccess e m e.variableArray
            ++ " && _pg_i < " ++ e.array ++ "; _pg_i++)\n" ++ rest
        ∧ (e.is2dArray = false → rest = ""))
      ∧ (∀ count array fuel : Nat, min count array < fuel →
          clampedLoopIndices count array fuel 0 = some (List.range (min count array)))
      ∧ (∀ (count array fuel : Nat) (visited : List Nat),
          clampedLoopIndices count array fuel 0 = some visited →
          visited.length = min count array ∧ ∀ i ∈ visited, i < array)
      ∧ clampedLoopIndices 15 10 11 0 = some [0, 1, 2, 3, 4, 5, 6, 7, 8, 9] := by
  refine ⟨?_, ?_, ?_, ?_, ?_⟩
  · by_cases h2 : e.is2dArray = true
    · by_cases hV2 : e.variable2dArray = ""
      · exact ⟨spacing ++ TAB_IN ++ "for(_pg_j = 0; _pg_j < " ++ e.array2d ++ "; _pg_j++)\n",
          by simp [getDecodeArrayIterationCode, hA, hV, h2, hV2, String.append_assoc],
          by simp [h2]⟩
      · exact ⟨spacing ++ TAB_IN ++ "for(_pg_j = 0; _pg_j < (unsigned)"
            ++ getDecodeFieldAccess e m e.variable2dArray
            ++ " && _pg_j < " ++ e.array2d ++ "; _pg_j++)\n",
          by simp [getDecodeArrayIterationCode, hA, hV, h2, hV2, String.append_assoc],
          by simp [h2]⟩
    · exact ⟨"", by simp [getDecodeArrayIterationCode, hA, hV, h2, String.append_assoc],
        fun _ => rfl⟩
  · by_cases h2 : e.is2dArray = true
    · by_cases hV2 : e.variable2dArray = ""
      · exact ⟨spacing ++ TAB_IN ++ "for(_pg_j = 0; _pg_j < " ++ e.array2d ++ "; _pg_j++)\n",
          by simp [getEncodeArrayIterationCode, hA, hV, h2, hV2, String.append_assoc],
          by simp [h2]⟩
      · exact ⟨spacing ++ TAB_IN ++ "for(_pg_j = 0; _pg_j < (unsigned)"
            ++ getEncodeFieldAccess e m e.variable2dArray
            ++ " && _pg_j < " ++ e.array2d ++ "; _pg_j++)\n",
          by simp [getEncodeArrayIterationCode, hA, hV, h2, hV2, String.append_assoc],
          by simp [h2]⟩
    · exact ⟨"", by simp [getEncodeArrayIterationCode, hA, hV, h2, String.append_assoc],
        fun _ => rfl⟩
  · intro count array fuel h
    rw [clampedLoopIndices_eq_range count array fuel 0 (by simpa using h), List.range_eq_range']
    simp
  · intro count array fuel visited h
    have hv := clampedLoopIndices_some count array fuel 0 visited h
    subst hv
    refine ⟨by simp, ?_⟩
    intro i hi
    have := (List.mem_range'_1.mp hi).2
    have hle : min count array ≤ array := min_le_right _ _
    omega
  · decide

/-- Witness for `variable_array_loop_is_clamped`: the primitive 1D array
`data[10]` with `variableArray = "count"`, as a C structure member. -/
theorem variable_array_loop_is_clamped_witness :
    (sampleArray true false "count" "").isArray = true
      ∧ (sampleArray true false "count" "").variableArray ≠ ""
      ∧ getDecodeArrayIterationCode "    " (sampleArray true false "count" "") "    " true
          = "    for(_pg_i = 0; _pg_i < (unsigned)_pg_user->count && _pg_i < 10; _pg_i++)\n"
      ∧ clampedLoopIndices 15 10 11 0 = some [0, 1, 2, 3, 4, 5, 6, 7, 8, 9] :=
  ⟨by decide, by decide, by decide,
    (variable_array_loop_is_clamped "    " "    " (sampleArray true false "count" "") true
      (by decide) (by decide)).2.2.2.2⟩

/-- Claim C5: for a 1D array field whose `variableArray` is empty, the encode
and the decode iteration code are both exactly `spacing`, then
`for(_pg_i = 0; _pg_i < `, `array`, `; _pg_i++)` and a line feed, whatever
`isStructureMember` is; for a field that is not an array both are empty. -/
theorem fixed_array_loop_code (TAB_IN spacing : String) (e : Encodable) (m : Bool) :
    (e.isArray = true → e.is2dArray = false → e.variableArray = "" →
        getEncodeArrayIterationCode TAB_IN e spacing m
          = spacing ++ "for(_pg_i = 0; _pg_i < " ++ e.array ++ "; _pg_i++)\n"
        ∧ getDecodeArrayIterationCode TAB_IN e spacing m
          = spacing ++ "for(_pg_i = 0; _pg_i < " ++ e.array ++ "; _pg_i++)\n"
        ∧ getEncodeArrayIterationCode TAB_IN e spacing m
          = getEncodeArrayIterationCode TAB_IN e spacing (!m)
        ∧ getDecodeArrayIterationCode TAB_IN e spacing m
          = getDecodeArrayIterationCode TAB_IN e spacing (!m))
      ∧ (e.isArray = false →
        getEncodeArrayIterationCode TAB_IN e spacing m = ""
        ∧ getDecodeArrayIterationCode TAB_IN e spacing m = "") := by
  constructor
  · intro hA h2 hV
    simp [getEncodeArrayIterationCode, getDecodeArrayIterationCode, hA, h2, hV]
  · intro hA
    simp [getEncodeArrayIterationCode, getDecodeArrayIterationCode, hA]

/-- Claim C6: for a 2D array field (which is in particular an array) the
encode and the decode iteration code consist of exactly two lines, the outer
`_pg_i` loop followed by the inner `_pg_j` loop.  The inner line starts with
`spacing` and `TAB_IN` and follows the rule of the outer loop against
`array2d` and `variable2dArray`: the bound is `_pg_j < array2d` alone when
`variable2dArray` is empty, and `_pg_j < (unsigned)` access to
`variable2dArray` ` && _pg_j < array2d` otherwise.  The inner line is the same
whatever `variableArray` is set to. -/
theorem two_dimensional_loop_code (TAB_IN spacing : String) (e : Encodable) (m : Bool)
    (hA : e.isArray = true) (h2 : e.is2dArray = true) (va : String) :
    getEncodeArrayIterationCode TAB_IN { e with variableArray := va } spacing m
        = (if va = "" then
            spacing ++ "for(_pg_i = 0; _pg_i < " ++ e.array ++ "; _pg_i++)\n"
           else
            spacing ++ "for(_pg_i = 0; _pg_i < (unsigned)" ++ getEncodeFieldAccess e m va
              ++ " && _pg_i < " ++ e.array ++ "; _pg_i++)\n")
          ++ (if e.variable2dArray = "" then
            spacing ++ TAB_IN ++ "for(_pg_j = 0; _pg_j < " ++ e.array2d ++ "; _pg_j++)\n"
           else
            spacing ++ TAB_IN ++ "for(_pg_j = 0; _pg_j < (unsigned)"
              ++ getEncodeFieldAccess e m e.variable2dArray
              ++ " && _pg_j < " ++ e.array2d ++ "; _pg_j++)\n")
      ∧ getDecodeArrayIterationCode TAB_IN { e with variableArray := va } spacing m
        = (if va = "" then
            spacing ++ "for(_pg_i = 0; _pg_i < " ++ e.array ++ "; _pg_i++)\n"
           else
            spacing ++ "for(_pg_i = 0; _pg_i < (unsigned)" ++ getDecodeFieldAccess e m va
              ++ " && _pg_i < " ++ e.array ++ "; _pg_i++)\n")
          ++ (if e.variable2dArray = "" then
            spacing ++ TAB_IN ++ "for(_pg_j = 0; _pg_j < " ++ e.array2d ++ "; _pg_j++)\n"
           else
            spacing ++ TAB_IN ++ "for(_pg_j = 0; _pg_j < (unsigned)"
              ++ getDecodeFieldAccess e m e.variable2dArray
              ++ " && _pg_j < " ++ e.array2d ++ "; _pg_j++)\n") := by
  have keyE : ∀ x : Encodable, x.isArray = true → x.is2dArray = true →
      getEncodeArrayIterationCode TAB_IN x spacing m
        = (if x.variableArray = "" then
            spacing ++ "for(_pg_i = 0; _pg_i < " ++ x.array ++ "; _pg_i++)\n"
           else
            spacing ++ "for(_pg_i = 0; _pg_i < (unsigned)"
              ++ getEncodeFieldAccess x m x.variableArray
              ++ " && _pg_i < " ++ x.array ++ "; _pg_i++)\n")
          ++ (if x.variable2dArray = "" then
            spacing ++ TAB_IN ++ "for(_pg_j = 0; _pg_j < " ++ x.array2d ++ "; _pg_j++)\n"
           else
            spacing ++ TAB_IN ++ "for(_pg_j = 0; _pg_j < (unsigned)"
              ++ getEncodeFieldAccess x m x.variable2dArray
              ++ " && _pg_j < " ++ x.array2d ++ "; _pg_j++)\n") := by
    intro x hxA hx2
    by_cases hV : x.variableArray = "" <;> by_cases hV2 : x.variable2dArray = "" <;>
      simp [getEncodeArrayIterationCode, hxA, hx2, hV, hV2, String.append_assoc]
  have keyD : ∀ x : Encodable, x.isArray = true → x.is2dArray = true →
      getDecodeArrayIterationCode TAB_IN x spacing m
        = (if x.variableArray = "" then
            spacing ++ "for(_pg_i = 0; _pg_i < " ++ x.array ++ "; _pg_i++)\n"
           else
            spacing ++ "for(_pg_i = 0; _pg_i < (unsigned)"
              ++ getDecodeFieldAccess x m x.variableArray
              ++ " && _pg_i < " ++ x.array ++ "; _pg_i++)\n")
          ++ (if x.variable2dArray = "" then
            spacing ++ TAB_IN ++ "for(_pg_j = 0; _pg_j < " ++ x.array2d ++ "; _pg_j++)\n"
           else
            spacing ++ TAB_IN ++ "for(_pg_j = 0; _pg_j < (unsigned)"
              ++ getDecodeFieldAccess x m x.variable2dArray
              ++ " && _pg_j < " ++ x.array2d ++ "; _pg_j++)\n") := by
    intro x hxA hx2
    by_cases hV : x.variableArray = "" <;> by_cases hV2 : x.variable2dArray = "" <;>
      simp [getDecodeArrayIterationCode, hxA, hx2, hV, hV2, String.append_assoc]
  exact ⟨keyE { e with variableArray := va } hA h2, keyD { e with variableArray := va } hA h2⟩

/-- Witness for `two_dimensional_loop_code`: the primitive 2D array
`data[10][4]` with `variable2dArray = "cols"` as a free parameter, its
`variableArray` being set to `rows`. -/
theorem two_dimensional_loop_code_witness :
    (sampleArray true true "" "cols").isArray = true
      ∧ (sampleArray true true "" "cols").is2dArray = true
      ∧ getDecodeArrayIterationCode "    "
          { sampleArray true true "" "cols" with variableArray := "rows" } "" false
        = "for(_pg_i = 0; _pg_i < (unsigned)(*rows) && _pg_i < 10; _pg_i++)\n"
          ++ "    for(_pg_j = 0; _pg_j < (unsigned)(*cols) && _pg_j < 4; _pg_j++)\n" :=
  ⟨by decide, by decide,
    (two_dimensional_loop_code "    " "" (sampleArray true true "" "cols") false
      (by decide) (by decide) "rows").2.trans (by decide)⟩

/-- Witness for `fixed_array_loop_code`: the primitive 1D array `data[10]`
without `variableArray`, and the non-array aggregate `date`. -/
theorem fixed_array_loop_code_witness :
    getDecodeArrayIterationCode "    " (sampleArray true false "" "") "  " true
        = "  for(_pg_i = 0; _pg_i < 10; _pg_i++)\n"
      ∧ getEncodeArrayIterationCode "    " (sampleAggregate LanguageType.c_language) "  " true
        = "" :=
  ⟨((fixed_array_loop_code "    " "  " (sampleArray true false "" "") true).1
      (by decide) (by decide) (by decide)).2.1,
    ((fixed_array_loop_code "    " "  " (sampleAggregate LanguageType.c_language) true).2
      (by decide)).1⟩

end Iteration

/-! ## Properties of the signatures and parameter comments -/

section Signatures

open Encodable

/-- Claim C8: for a field that is encoded, in memory and not constant, the
encode signature is `, const T name[array][array2d]` for a 2D array; otherwise
`, const T name[array]` for an array; otherwise `, T name` (by value, no
`const`) for a primitive; otherwise `, const T* name` (by address), where `T`
is `typeName`: the array shape is decided before the primitive or aggregate
nature. -/
theorem encode_signature_shape (e : Encodable)
    (hE : e.isNotEncoded = false) (hM : e.isNotInMemory = false) (hK : e.isConstant = false) :
    (e.is2dArray = true →
        getEncodeSignature e
          = ", const " ++ e.typeName ++ " " ++ e.name ++ "[" ++ e.array ++ "][" ++ e.array2d
            ++ "]")
      ∧ (e.is2dArray = false → e.isArray = true →
        getEncodeSignature e = ", const " ++ e.typeName ++ " " ++ e.name ++ "[" ++ e.array ++ "]")
      ∧ (e.is2dArray = false → e.isArray = false → e.isPrimitive = true →
        getEncodeSignature e = ", " ++ e.typeName ++ " " ++ e.name)
      ∧ (e.is2dArray = false → e.isArray = false → e.isPrimitive = false →
        getEncodeSignature e = ", const " ++ e.typeName ++ "* " ++ e.name) := by
  refine ⟨fun h2 => ?_, fun h2 hA => ?_, fun h2 hA hP => ?_, fun h2 hA hP => ?_⟩
  · simp [getEncodeSignature, hE, hM, hK, h2]
  · simp [getEncodeSignature, hE, hM, hK, h2, hA]
  · simp [getEncodeSignature, hE, hM, hK, h2, hA, hP]
  · simp [getEncodeSignature, hE, hM, hK, h2, hA, hP]

/-- Witness for `encode_signature_shape`: the aggregate 1D array `data[10]`
is passed as `const uint8_t data[10]`, the array shape deciding before the
aggregate nature. -/
theorem encode_signature_shape_witness :
    (sampleArray false false "" "").isNotEncoded = false
      ∧ (sampleArray false false "" "").isNotInMemory = false
      ∧ (sampleArray false false "" "").isConstant = false
      ∧ getEncodeSignature (sampleArray false false "" "") = ", const uint8_t data[10]" :=
  ⟨by decide, by decide, by decide,
    (encode_signature_shape (sampleArray false false "" "") (by decide) (by decide)
      (by decide)).2.1 (by decide) (by decide)⟩

/-- Claim C9: for a field that is encoded and in memory, the decode signature
is `, T name[array][array2d]` for a 2D array; otherwise `, T name[array]` for
an array; otherwise `, T* name`, for a primitive and for an aggregate alike.
The text that follows the leading comma and blank is `typeName` itself, so the
generator adds no `const` qualifier, and a field that is not an array is
always passed by address, never by value. -/
theorem decode_signature_shape (e : Encodable)
    (hE : e.isNotEncoded = false) (hM : e.isNotInMemory = false) :
    (e.is2dArray = true →
        getDecodeSignature e
          = ", " ++ e.typeName ++ " " ++ e.name ++ "[" ++ e.array ++ "][" ++ e.array2d ++ "]")
      ∧ (e.is2dArray = false → e.isArray = true →
        getDecodeSignature e = ", " ++ e.typeName ++ " " ++ e.name ++ "[" ++ e.array ++ "]")
      ∧ (e.is2dArray = false → e.isArray = false →
        getDecodeSignature e = ", " ++ e.typeName ++ "* " ++ e.name)
      ∧ (∃ rest, getDecodeSignature e = ", " ++ e.typeName ++ rest) := by
  refine ⟨fun h2 => ?_, fun h2 hA => ?_, fun h2 hA => ?_, ?_⟩
  · simp [getDecodeSignature, hE, hM, h2]
  · simp [getDecodeSignature, hE, hM, h2, hA]
  · simp [getDecodeSignature, hE, hM, h2, hA]
  · cases h2 : e.is2dArray <;> cases hA : e.isArray
    · exact ⟨"* " ++ e.name, by simp [getDecodeSignature, hE, hM, h2, hA, String.append_assoc]⟩
    · exact ⟨" " ++ e.name ++ "[" ++ e.array ++ "]",
        by simp [getDecodeSignature, hE, hM, h2, hA, String.append_assoc]⟩
    · exact ⟨" " ++ e.name ++ "[" ++ e.array ++ "][" ++ e.array2d ++ "]",
        by simp [getDecodeSignature, hE, hM, h2, hA, String.append_assoc]⟩
    · exact ⟨" " ++ e.name ++ "[" ++ e.array ++ "][" ++ e.array2d ++ "]",
        by simp [getDecodeSignature, hE, hM, h2, hA, String.append_assoc]⟩

/-- Witness for `decode_signature_shape`: the aggregate `date` is passed as
`Date_t* date`. -/
theorem decode_signature_shape_witness :
    (sampleAggregate LanguageType.c_language).isNotEncoded = false
      ∧ (sampleAggregate LanguageType.c_language).isNotInMemory = false
      ∧ getDecodeSignature (sampleAggregate LanguageType.c_language) = ", Date_t* date" :=
  ⟨by decide, by decide,
    (decode_signature_shape (sampleAggregate LanguageType.c_language) (by decide)
      (by decide)).2.2.1 (by decide) (by decide)⟩

end Signatures

/-! ## The bitfield chain -/

section Bitfields

open ProtocolField

/-- Setting the starting bit count stores it and leaves the encoded type, and
hence the declared width, unchanged. -/
theorem setStartingBitCount_fields (cel : ProtocolField → String) (f : ProtocolField)
    (bitcount : Int) :
    (setStartingBitCount cel f bitcount).bitfieldData.startingBitCount = bitcount
      ∧ (setStartingBitCount cel f bitcount).encodedType = f.encodedType :=
  ⟨rfl, rfl⟩

/-- Along a chained run, the starting bit count of member `k` is that of the
first member plus the widths of the `k` members before it. -/
theorem chained_run_start (cel : ProtocolField → String) :
    ∀ (rest : List ProtocolField) (first : ProtocolField),
      List.Chain (fun p q => ∃ q0, q = setStartingBitCount cel q0 (getEndingBitCount p))
        first rest →
      ∀ (k : Nat) (hk : k < (first :: rest).length),
        ((first :: rest).get ⟨k, hk⟩).bitfieldData.startingBitCount
          = first.bitfieldData.startingBitCount
            + (((first :: rest).map (fun f => f.encodedType.bits)).take k).sum := by
  intro rest
  induction rest with
  | nil =>
    intro first _ k hk
    have hk0 : k = 0 := by simpa using hk
    subst hk0
    simp
  | cons q rest ih =>
    intro first hchain k hk
    rw [List.chain_cons] at hchain
    obtain ⟨⟨q0, hq⟩, hrest⟩ := hchain
    cases k with
    | zero => simp
    | succ k =>
      have hk2 : k < (q :: rest).length := by simpa using hk
      have hstep := ih q hrest k hk2
      have hqs : q.bitfieldData.startingBitCount
          = first.bitfieldData.startingBitCount + first.encodedType.bits := by
        rw [hq]; rfl
      have hget : (first :: q :: rest).get ⟨k + 1, hk⟩ = (q :: rest).get ⟨k, hk2⟩ := rfl
      rw [hget, hstep, hqs]
      simp only [List.map_cons, List.take_succ_cons, List.sum_cons]
      ring

/-- Along a chained run, the ending bit count of the last member is the
starting bit count of the first member plus all the widths. -/
theorem chained_run_end (cel : ProtocolField → String) :
    ∀ (rest : List ProtocolField) (first : ProtocolField),
      List.Chain (fun p q => ∃ q0, q = setStartingBitCount cel q0 (getEndingBitCount p))
        first rest →
      getEndingBitCount ((first :: rest).getLast (List.cons_ne_nil first rest))
        = first.bitfieldData.startingBitCount
          + ((first :: rest).map (fun f => f.encodedType.bits)).sum := by
  intro rest
  induction rest with
  | nil => intro first _; simp [getEndingBitCount]
  | cons q rest ih =>
    intro first hchain
    rw [List.chain_cons] at hchain
    obtain ⟨⟨q0, hq⟩, hrest⟩ := hchain
    have hqs : q.bitfieldData.startingBitCount
        = first.bitfieldData.startingBitCount + first.encodedType.bits := by
      rw [hq]; rfl
    rw [List.getLast_cons (List.cons_ne_nil q rest), ih q hrest, hqs]
    simp only [List.map_cons, List.sum_cons]
    ring

/-- Along a chained run of positive widths, each starting bit count is below
the next one. -/
theorem chained_run_starts_chain (cel : ProtocolField → String) :
    ∀ (rest : List ProtocolField) (first : ProtocolField),
      List.Chain (fun p q => ∃ q0, q = setStartingBitCount cel q0 (getEndingBitCount p))
        first rest →
      (∀ f ∈ first :: rest, 0 < f.encodedType.bits) →
      List.Chain (fun a b : Int => a < b) first.bitfieldData.startingBitCount
        (rest.map (fun f => f.bitfieldData.startingBitCount)) := by
  intro rest
  induction rest with
  | nil => intro first _ _; exact List.Chain.nil
  | cons q rest ih =>
    intro first hchain hpos
    rw [List.chain_cons] at hchain
    obtain ⟨⟨q0, hq⟩, hrest⟩ := hchain
    have hqs : q.bitfieldData.startingBitCount
        = first.bitfieldData.startingBitCount + first.encodedType.bits := by
      rw [hq]; rfl
    have hw : 0 < first.encodedType.bits := hpos first (List.mem_cons_self _ _)
    rw [List.map_cons, List.chain_cons]
    refine ⟨by rw [hqs]; omega, ih q hrest ?_⟩
    intro f hf
    exact hpos f (List.mem_cons_of_mem _ hf)

/-- Claim C10: in a run of bitfield fields whose first member has
`startingBitCount` 0 and in which each later member results from
`setStartingBitCount` with its predecessor's `getEndingBitCount()`, the
starting bit count of member `k` is the sum of the declared widths
(`encodedType.bits`) of the members before it, `getEndingBitCount()` of the
last member is the sum of all widths, and when all widths are positive the
starting bit counts are strictly increasing along the run. -/
theorem bitfield_run_starts_are_prefix_sums (computeEncodedLength : ProtocolField → String)
    (first : ProtocolField) (rest : List ProtocolField)
    (hfirst : first.bitfieldData.startingBitCount = 0)
    (hchain : List.Chain
      (fun p q => ∃ q0, q = setStartingBitCount computeEncodedLength q0 (getEndingBitCount p))
      first rest) :
    (∀ (k : Nat) (hk : k < (first :: rest).length),
        ((first :: rest).get ⟨k, hk⟩).bitfieldData.startingBitCount
          = (((first :: rest).map (fun f => f.encodedType.bits)).take k).sum)
      ∧ getEndingBitCount ((first :: rest).getLast (List.cons_ne_nil first rest))
          = ((first :: rest).map (fun f => f.encodedType.bits)).sum
      ∧ ((∀ f ∈ first :: rest, 0 < f.encodedType.bits) →
          List.Pairwise (fun a b : Int => a < b)
            ((first :: rest).map (fun f => f.bitfieldData.startingBitCount))) := by
  refine ⟨?_, ?_, ?_⟩
  · intro k hk
    rw [chained_run_start computeEncodedLength rest first hchain k hk, hfirst, zero_add]
  · rw [chained_run_end computeEncodedLength rest first hchain, hfirst, zero_add]
  · intro hpos
    have hc := chained_run_starts_chain computeEncodedLength rest first hchain hpos
    rw [List.map_cons]
    exact List.chain_iff_pairwise.mp hc

/-- Witness for `bitfield_run_starts_are_prefix_sums`: a run of three
bitfields of widths 3, 5 and 4, chained by `setStartingBitCount`, starts at
0, 3 and 8 and ends at 12. -/
theorem bitfield_run_starts_are_prefix_sums_witness :
    ((sampleBitfield "a" 3 ::
        [setStartingBitCount sampleComputeEncodedLength (sampleBitfield "b" 5)
            (getEndingBitCount (sampleBitfield "a" 3)),
          setStartingBitCount sampleComputeEncodedLength (sampleBitfield "c" 4)
            (getEndingBitCount
              (setStartingBitCount sampleComputeEncodedLength (sampleBitfield "b" 5)
                (getEndingBitCount (sampleBitfield "a" 3))))]).map
        (fun f => f.bitfieldData.startingBitCount) = [0, 3, 8])
      ∧ getEndingBitCount
          ((sampleBitfield "a" 3 ::
            [setStartingBitCount sampleComputeEncodedLength (sampleBitfield "b" 5)
                (getEndingBitCount (sampleBitfield "a" 3)),
              setStartingBitCount sampleComputeEncodedLength (sampleBitfield "c" 4)
                (getEndingBitCount
                  (setStartingBitCount sampleComputeEncodedLength (sampleBitfield "b" 5)
                    (getEndingBitCount (sampleBitfield "a" 3))))]).getLast
            (List.cons_ne_nil _ _))
          = ([3, 5, 4] : List Int).sum :=
  ⟨by decide,
    (bitfield_run_starts_are_prefix_sums sampleComputeEncodedLength (sampleBitfield "a" 3)
      [setStartingBitCount sampleComputeEncodedLength (sampleBitfield "b" 5)
          (getEndingBitCount (sampleBitfield "a" 3)),
        setStartingBitCount sampleComputeEncodedLength (sampleBitfield "c" 4)
          (getEndingBitCount
            (setStartingBitCount sampleComputeEncodedLength (sampleBitfield "b" 5)
              (getEndingBitCount (sampleBitfield "a" 3))))]
      rfl
      (List.Chain.cons ⟨sampleBitfield "b" 5, rfl⟩
        (List.Chain.cons ⟨sampleBitfield "c" 4, rfl⟩ List.Chain.nil))).2.1⟩

end Bitfields

/-! ## Properties of the keyword check -/

section Keywords

open Encodable

/-- The string left by one block of the check. -/
@[simp] theorem checkName_fst (list : List String) (message x : String) (warnings : List String) :
    (checkName list message x warnings).1 = if x ∈ list then "_" ++ x else x := by
  unfold checkName; split <;> rfl

/-- The warnings left by one block of the check. -/
@[simp] theorem checkName_snd (list : List String) (message x : String) (warnings : List String) :
    (checkName list message x warnings).2 = warnings ++ (if x ∈ list then [message] else []) := by
  unfold checkName; split <;> simp

/-- Claim C11: for every one of the seven checked names (`name`, `array`,
`variableArray`, `array2d`, `variable2dArray`, `dependsOn`, `dependsOnValue`),
independently of the other six: a value that is in the keyword list, and whose
underscored form is not in the list of ProtoGen variable names, is replaced by
`_` followed by the value and the matching "matches C keyword" warning is
recorded; a value that the variable-name check finds in the list of ProtoGen
variable names is likewise replaced by `_` followed by it, with the matching
"matches ProtoGen variable" warning (that check runs on the value as the
keyword check left it: the value itself when it is no keyword, its underscored
form when it was one).  The call always returns: it has no failing outcome. -/
theorem keyword_collision_renames_with_warning (keywords variablenames : List String)
    (e : EncodableData) :
    ((e.name ∈ keywords → "_" ++ e.name ∉ variablenames →
        (checkAgainstKeywords keywords variablenames e).1.name = "_" ++ e.name
        ∧ "name matches C keyword, changed to _name"
            ∈ (checkAgainstKeywords keywords variablenames e).2)
      ∧ (e.name ∉ keywords → e.name ∈ variablenames →
        (checkAgainstKeywords keywords variablenames e).1.name = "_" ++ e.name
        ∧ "name matches ProtoGen variable, changed to _name"
            ∈ (checkAgainstKeywords keywords variablenames e).2)
      ∧ (e.name ∈ keywords → "_" ++ e.name ∈ variablenames →
        (checkAgainstKeywords keywords variablenames e).1.name = "_" ++ ("_" ++ e.name)
        ∧ "name matches C keyword, changed to _name"
            ∈ (checkAgainstKeywords keywords variablenames e).2
        ∧ "name matches ProtoGen variable, changed to _name"
            ∈ (checkAgainstKeywords keywords variablenames e).2)
      ∧ (e.array ∈ keywords → "_" ++ e.array ∉ variablenames →
        (checkAgainstKeywords keywords variablenames e).1.array = "_" ++ e.array
        ∧ "array matches C keyword, changed to _array"
            ∈ (checkAgainstKeywords keywords variablenames e).2)
      ∧ (e.array ∉ keywords → e.array ∈ variablenames →
        (checkAgainstKeywords keywords variablenames e).1.array = "_" ++ e.array
        ∧ "array matches ProtoGen variable, changed to _array"
            ∈ (checkAgainstKeywords keywords variablenames e).2)
      ∧ (e.array ∈ keywords → "_" ++ e.array ∈ variablenames →
        (checkAgainstKeywords keywords variablenames e).1.array = "_" ++ ("_" ++ e.array)
        ∧ "array matches C keyword, changed to _array"
            ∈ (checkAgainstKeywords keywords variablenames e).2
        ∧ "array matches ProtoGen variable, changed to _array"
            ∈ (checkAgainstKeywords keywords variablenames e).2)
      ∧ (e.variableArray ∈ keywords → "_" ++ e.variableArray ∉ variablenames →
        (checkAgainstKeywords keywords variablenames e).1.variableArray = "_" ++ e.variableArray
        ∧ "variableArray matches C keyword, changed to _variableArray"
            ∈ (checkAgainstKeywords keywords variablenames e).2)
      ∧ (e.variableArray ∉ keywords → e.variableArray ∈ variablenames →
        (checkAgainstKeywords keywords variablenames e).1.variableArray = "_" ++ e.variableArray
        ∧ "variableArray matches ProtoGen variable, changed to _variableArray"
            ∈ (checkAgainstKeywords keywords variablenames e).2)
      ∧ (e.variableArray ∈ keywords → "_" ++ e.variableArray ∈ variablenames →
        (checkAgainstKeywords keywords variablenames e).1.variableArray = "_" ++ ("_" ++ e.variableArray)
        ∧ "variableArray matches C keyword, changed to _variableArray"
            ∈ (checkAgainstKeywords keywords variablenames e).2
        ∧ "variableArray matches ProtoGen variable, changed to _variableArray"
            ∈ (checkAgainstKeywords keywords variablenames e).2)
      ∧ (e.array2d ∈ keywords → "_" ++ e.array2d ∉ variablenames →
        (checkAgainstKeywords keywords variablenames e).1.array2d = "_" ++ e.array2d
        ∧ "array2d matches C keyword, changed to _array2d"
            ∈ (checkAgainstKeywords keywords variablenames e).2)
      ∧ (e.array2d ∉ keywords → e.array2d ∈ variablenames →
        (checkAgainstKeywords keywords variablenames e).1.array2d = "_" ++ e.array2d
        ∧ "array2d matches ProtoGen variable, changed to _array2d"
            ∈ (checkAgainstKeywords keywords variablenames e).2)
      ∧ (e.array2d ∈ keywords → "_" ++ e.array2d ∈ variablenames →
        (checkAgainstKeywords keywords variablenames e).1.array2d = "_" ++ ("_" ++ e.array2d)
        ∧ "array2d matches C keyword, changed to _array2d"
            ∈ (checkAgainstKeywords keywords variablenames e).2
        ∧ "array2d matches ProtoGen variable, changed to _array2d"
            ∈ (checkAgainstKeywords keywords variablenames e).2)
      ∧ (e.variable2dArray ∈ keywords → "_" ++ e.variable2dArray ∉ variablenames →
        (checkAgainstKeywords keywords variablenames e).1.variable2dArray = "_" ++ e.variable2dArray
        ∧ "variable2dArray matches C keyword, changed to _variable2dArray"
            ∈ (checkAgainstKeywords keywords variablenames e).2)
      ∧ (e.variable2dArray ∉ keywords → e.variable2dArray ∈ variablenames →
        (checkAgainstKeywords keywords variablenames e).1.variable2dArray = "_" ++ e.variable2dArray
        ∧ "variable2dArray matches ProtoGen variable, changed to _variable2dArray"
            ∈ (checkAgainstKeywords keywords variablenames e).2)
      ∧ (e.variable2dArray ∈ keywords → "_" ++ e.variable2dArray ∈ variablenames →
        (checkAgainstKeywords keywords variablenames e).1.variable2dArray = "_" ++ ("_" ++ e.variable2dArray)
        ∧ "variable2dArray matches C keyword, changed to _variable2dArray"
            ∈ (checkAgainstKeywords keywords variablenames e).2
        ∧ "variable2dArray matches ProtoGen variable, changed to _variable2dArray"
            ∈ (checkAgainstKeywords keywords variablenames e).2)
      ∧ (e.dependsOn ∈ keywords → "_" ++ e.dependsOn ∉ variablenames →
        (checkAgainstKeywords keywords variablenames e).1.dependsOn = "_" ++ e.dependsOn
        ∧ "dependsOn matches C keyword, changed to _dependsOn"
            ∈ (checkAgainstKeywords keywords variablenames e).2)
      ∧ (e.dependsOn ∉ keywords → e.dependsOn ∈ variablenames →
        (checkAgainstKeywords keywords variablenames e).1.dependsOn = "_" ++ e.dependsOn
        ∧ "dependsOn matches ProtoGen variable, changed to _dependsOn"
            ∈ (checkAgainstKeywords keywords variablenames e).2)
      ∧ (e.dependsOn ∈ keywords → "_" ++ e.dependsOn ∈ variablenames →
        (checkAgainstKeywords keywords variablenames e).1.dependsOn = "_" ++ ("_" ++ e.dependsOn)
        ∧ "dependsOn matches C keyword, changed to _dependsOn"
            ∈ (checkAgainstKeywords keywords variablenames e).2
        ∧ "dependsOn matches ProtoGen variable, changed to _dependsOn"
            ∈ (checkAgainstKeywords keywords variablenames e).2)
      ∧ (e.dependsOnValue ∈ keywords → "_" ++ e.dependsOnValue ∉ variablenames →
        (checkAgainstKeywords keywords variablenames e).1.dependsOnValue = "_" ++ e.dependsOnValue
        ∧ "dependsOnValue matches C keyword, changed to _dependsOnValue"
            ∈ (checkAgainstKeywords keywords variablenames e).2)
      ∧ (e.dependsOnValue ∉ keywords → e.dependsOnValue ∈ variablenames →
        (checkAgainstKeywords keywords variablenames e).1.dependsOnValue = "_" ++ e.dependsOnValue
        ∧ "dependsOnValue matches ProtoGen variable, changed to _dependsOnValue"
            ∈ (checkAgainstKeywords keywords variablenames e).2)
      ∧ (e.dependsOnValue ∈ keywords → "_" ++ e.dependsOnValue ∈ variablenames →
        (checkAgainstKeywords keywords variablenames e).1.dependsOnValue = "_" ++ ("_" ++ e.dependsOnValue)
        ∧ "dependsOnValue matches C keyword, changed to _dependsOnValue"
            ∈ (checkAgainstKeywords keywords variablenames e).2
        ∧ "dependsOnValue matches ProtoGen variable, changed to _dependsOnValue"
            ∈ (checkAgainstKeywords keywords variablenames e).2))
      ∧ (∃ data warnings, checkAgainstKeywords keywords variablenames e = (data, warnings)) := by
  refine ⟨⟨?_, ?_, ?_, ?_, ?_, ?_, ?_, ?_, ?_, ?_, ?_, ?_, ?_, ?_, ?_, ?_, ?_, ?_, ?_, ?_, ?_⟩, ⟨_, _, rfl⟩⟩
  · intro h1 h2
    simp [checkAgainstKeywords, h1, h2]
  · intro h1 h2
    simp [checkAgainstKeywords, h1, h2]
  · intro h1 h2
    simp [checkAgainstKeywords, h1, h2]
  · intro h1 h2
    simp [checkAgainstKeywords, h1, h2]
  · intro h1 h2
    simp [checkAgainstKeywords, h1, h2]
  · intro h1 h2
    simp [checkAgainstKeywords, h1, h2]
  · intro h1 h2
    simp [checkAgainstKeywords, h1, h2]
  · intro h1 h2
    simp [checkAgainstKeywords, h1, h2]
  · intro h1 h2
    simp [checkAgainstKeywords, h1, h2]
  · intro h1 h2
    simp [checkAgainstKeywords, h1, h2]
  · intro h1 h2
    simp [checkAgainstKeywords, h1, h2]
  · intro h1 h2
    simp [checkAgainstKeywords, h1, h2]
  · intro h1 h2
    simp [checkAgainstKeywords, h1, h2]
  · intro h1 h2
    simp [checkAgainstKeywords, h1, h2]
  · intro h1 h2
    simp [checkAgainstKeywords, h1, h2]
  · intro h1 h2
    simp [checkAgainstKeywords, h1, h2]
  · intro h1 h2
    simp [checkAgainstKeywords, h1, h2]
  · intro h1 h2
    simp [checkAgainstKeywords, h1, h2]
  · intro h1 h2
    simp [checkAgainstKeywords, h1, h2]
  · intro h1 h2
    simp [checkAgainstKeywords, h1, h2]
  · intro h1 h2
    simp [checkAgainstKeywords, h1, h2]

/-- Witness for `keyword_collision_renames_with_warning`: the field named
`int` becomes `_int` with the keyword warning, and its array bound `_pg_i`
becomes `__pg_i` with the ProtoGen variable warning. -/
theorem keyword_collision_renames_with_warning_witness :
    "int" ∈ sampleKeywords ∧ "_" ++ "int" ∉ sampleVariablenames
      ∧ (checkAgainstKeywords sampleKeywords sampleVariablenames sampleKeywordData).1.name
          = "_int"
      ∧ "name matches C keyword, changed to _name"
          ∈ (checkAgainstKeywords sampleKeywords sampleVariablenames sampleKeywordData).2
      ∧ (checkAgainstKeywords sampleKeywords sampleVariablenames sampleKeywordData).1.array
          = "__pg_i" :=
  ⟨by decide, by decide,
    ((keyword_collision_renames_with_warning sampleKeywords sampleVariablenames
      sampleKeywordData).1.1 (by decide) (by decide)).1,
    ((keyword_collision_renames_with_warning sampleKeywords sampleVariablenames
      sampleKeywordData).1.1 (by decide) (by decide)).2,
    ((keyword_collision_renames_with_warning sampleKeywords sampleVariablenames
      sampleKeywordData).1.2.2.2.2.1 (by decide) (by decide)).1⟩

/-- When no member of either list is `_` followed by a member of either list,
the value left by the keyword check and the variable-name check is in neither
list. -/
theorem renamed_not_mem (keywords variablenames : List String)
    (hlists : ∀ x y : String, (x ∈ keywords ∨ x ∈ variablenames) →
      (y ∈ keywords ∨ y ∈ variablenames) → y ≠ "_" ++ x)
    (x : String) :
    (if (if x ∈ keywords then "_" ++ x else x) ∈ variablenames
      then "_" ++ (if x ∈ keywords then "_" ++ x else x)
      else (if x ∈ keywords then "_" ++ x else x)) ∉ keywords
    ∧ (if (if x ∈ keywords then "_" ++ x else x) ∈ variablenames
      then "_" ++ (if x ∈ keywords then "_" ++ x else x)
      else (if x ∈ keywords then "_" ++ x else x)) ∉ variablenames := by
  by_cases hk : x ∈ keywords
  · have h1 : "_" ++ x ∉ variablenames :=
      fun h => hlists x ("_" ++ x) (Or.inl hk) (Or.inr h) rfl
    have h2 : "_" ++ x ∉ keywords :=
      fun h => hlists x ("_" ++ x) (Or.inl hk) (Or.inl h) rfl
    simp [hk, h1, h2]
  · by_cases hv : x ∈ variablenames
    · have h1 : "_" ++ x ∉ variablenames :=
        fun h => hlists x ("_" ++ x) (Or.inr hv) (Or.inr h) rfl
      have h2 : "_" ++ x ∉ keywords :=
        fun h => hlists x ("_" ++ x) (Or.inr hv) (Or.inl h) rfl
      simp [hk, hv, h1, h2]
    · simp [hk, hv]

/-- A call on data none of whose seven checked names is in either list changes
nothing and emits no warning. -/
theorem checkAgainstKeywords_of_not_mem (keywords variablenames : List String)
    (e : EncodableData)
    (h : ∀ x ∈ [e.name, e.array, e.variableArray, e.array2d, e.variable2dArray, e.dependsOn,
      e.dependsOnValue], x ∉ keywords ∧ x ∉ variablenames) :
    checkAgainstKeywords keywords variablenames e = (e, []) := by
  simp only [List.mem_cons, List.mem_singleton, forall_eq_or_imp, forall_eq,
    List.not_mem_nil, false_imp_iff, implies_true, and_true] at h
  obtain ⟨⟨a1, b1⟩, ⟨a2, b2⟩, ⟨a3, b3⟩, ⟨a4, b4⟩, ⟨a5, b5⟩, ⟨a6, b6⟩, ⟨a7, b7⟩⟩ := h
  simp [checkAgainstKeywords, a1, b1, a2, b2, a3, b3, a4, b4, a5, b5, a6, b6, a7, b7]

/-- Claim C12: provided that no member of the keyword list or of the list of
ProtoGen variable names is `_` followed by a member of either list, after one
call none of the seven checked names is a member of either list, and a second
call changes nothing and emits no warning. -/
theorem keyword_check_is_idempotent (keywords variablenames : List String)
    (e : EncodableData)
    (hlists : ∀ x y : String, (x ∈ keywords ∨ x ∈ variablenames) →
      (y ∈ keywords ∨ y ∈ variablenames) → y ≠ "_" ++ x) :
    ((checkAgainstKeywords keywords variablenames e).1.name ∉ keywords
      ∧ (checkAgainstKeywords keywords variablenames e).1.name ∉ variablenames
      ∧ (checkAgainstKeywords keywords variablenames e).1.array ∉ keywords
      ∧ (checkAgainstKeywords keywords variablenames e).1.array ∉ variablenames
      ∧ (checkAgainstKeywords keywords variablenames e).1.variableArray ∉ keywords
      ∧ (checkAgainstKeywords keywords variablenames e).1.variableArray ∉ variablenames
      ∧ (checkAgainstKeywords keywords variablenames e).1.array2d ∉ keywords
      ∧ (checkAgainstKeywords keywords variablenames e).1.array2d ∉ variablenames
      ∧ (checkAgainstKeywords keywords variablenames e).1.variable2dArray ∉ keywords
      ∧ (checkAgainstKeywords keywords variablenames e).1.variable2dArray ∉ variablenames
      ∧ (checkAgainstKeywords keywords variablenames e).1.dependsOn ∉ keywords
      ∧ (checkAgainstKeywords keywords variablenames e).1.dependsOn ∉ variablenames
      ∧ (checkAgainstKeywords keywords variablenames e).1.dependsOnValue ∉ keywords
      ∧ (checkAgainstKeywords keywords variablenames e).1.dependsOnValue ∉ variablenames)
      ∧ checkAgainstKeywords keywords variablenames
          (checkAgainstKeywords keywords variablenames e).1
        = ((checkAgainstKeywords keywords variablenames e).1, []) := by
  have hr := renamed_not_mem keywords variablenames hlists
  have hmem : (checkAgainstKeywords keywords variablenames e).1.name ∉ keywords ∧ (checkAgainstKeywords keywords variablenames e).1.name ∉ variablenames ∧ (checkAgainstKeywords keywords variablenames e).1.array ∉ keywords ∧ (checkAgainstKeywords keywords variablenames e).1.array ∉ variablenames ∧ (checkAgainstKeywords keywords variablenames e).1.variableArray ∉ keywords ∧ (checkAgainstKeywords keywords variablenames e).1.variableArray ∉ variablenames ∧ (checkAgainstKeywords keywords variablenames e).1.array2d ∉ keywords ∧ (checkAgainstKeywords keywords variablenames e).1.array2d ∉ variablenames ∧ (checkAgainstKeywords keywords variablenames e).1.variable2dArray ∉ keywords ∧ (checkAgainstKeywords keywords variablenames e).1.variable2dArray ∉ variablenames ∧ (checkAgainstKeywords keywords variablenames e).1.dependsOn ∉ keywords ∧ (checkAgainstKeywords keywords variablenames e).1.dependsOn ∉ variablenames ∧ (checkAgainstKeywords keywords variablenames e).1.dependsOnValue ∉ keywords ∧ (checkAgainstKeywords keywords variablenames e).1.dependsOnValue ∉ variablenames := by
    simp only [checkAgainstKeywords, checkName_fst]
    exact ⟨(hr e.name).1, (hr e.name).2, (hr e.array).1, (hr e.array).2,
      (hr e.variableArray).1, (hr e.variableArray).2, (hr e.array2d).1, (hr e.array2d).2,
      (hr e.variable2dArray).1, (hr e.variable2dArray).2, (hr e.dependsOn).1,
      (hr e.dependsOn).2, (hr e.dependsOnValue).1, (hr e.dependsOnValue).2⟩
  refine ⟨hmem, checkAgainstKeywords_of_not_mem keywords variablenames _ ?_⟩
  obtain ⟨a1, b1, a2, b2, a3, b3, a4, b4, a5, b5, a6, b6, a7, b7⟩ := hmem
  intro x hx
  simp only [List.mem_cons, List.mem_singleton, List.not_mem_nil, or_false] at hx
  rcases hx with rfl | rfl | rfl | rfl | rfl | rfl | rfl
  · exact ⟨a1, b1⟩
  · exact ⟨a2, b2⟩
  · exact ⟨a3, b3⟩
  · exact ⟨a4, b4⟩
  · exact ⟨a5, b5⟩
  · exact ⟨a6, b6⟩
  · exact ⟨a7, b7⟩

/-- Witness for `keyword_check_is_idempotent`: with the sample lists, the
field named `int` is `_int` after one call, which is in neither list, and a
second call emits no warning. -/
theorem keyword_check_is_idempotent_witness :
    (checkAgainstKeywords sampleKeywords sampleVariablenames sampleKeywordData).1.name
        ∉ sampleKeywords
      ∧ (checkAgainstKeywords sampleKeywords sampleVariablenames
          (checkAgainstKeywords sampleKeywords sampleVariablenames sampleKeywordData).1).2
        = [] := by
  have hlists : ∀ x y : String, (x ∈ sampleKeywords ∨ x ∈ sampleVariablenames) →
      (y ∈ sampleKeywords ∨ y ∈ sampleVariablenames) → y ≠ "_" ++ x := by
    intro x y hx hy
    simp only [sampleKeywords, sampleVariablenames, List.mem_cons, List.mem_singleton,
      List.not_mem_nil, or_false] at hx hy
    rcases hx with (rfl | rfl | rfl | rfl) | (rfl | rfl | rfl) <;>
      rcases hy with (rfl | rfl | rfl | rfl) | (rfl | rfl | rfl) <;> decide
  exact ⟨(keyword_check_is_idempotent sampleKeywords sampleVariablenames sampleKeywordData
      hlists).1.1,
    congrArg Prod.snd (keyword_check_is_idempotent sampleKeywords sampleVariablenames
      sampleKeywordData hlists).2⟩

end Keywords

/-! ## Properties of the factory and of the return code -/

section Factory

open Encodable

/-- A tag that holds a word, in any letter case and between any surrounding
characters, contains that word without regard to case. -/
theorem containsCaseInsensitive_of_surrounded (foldCase : Char → Char)
    (before word after str : String) (hword : word.data.map foldCase = str.data.map foldCase) :
    containsCaseInsensitive foldCase (before ++ word ++ after) str = true := by
  unfold containsCaseInsensitive
  rw [decide_eq_true_eq, String.data_append, String.data_append, List.map_append,
    List.map_append, hword]
  exact ⟨_, _, rfl⟩

/-- Claim C13: `generateEncodable` yields no object exactly when the tag name
contains none of `Structure`, `Data`, `Code` as a case-insensitive substring;
a tag that contains only `Structure` yields the aggregate variant, only `Data`
the scalar field variant, only `Code` the raw code variant; and a word is
contained whatever its letter case and whatever surrounds it in the tag. -/
theorem factory_dispatch_on_tag (foldCase : Char → Char) (tagName : String) :
    (generateEncodable foldCase tagName = none
        ↔ (containsCaseInsensitive foldCase tagName "Structure" = false
          ∧ containsCaseInsensitive foldCase tagName "Data" = false
          ∧ containsCaseInsensitive foldCase tagName "Code" = false))
      ∧ (containsCaseInsensitive foldCase tagName "Structure" = true →
          containsCaseInsensitive foldCase tagName "Data" = false →
          containsCaseInsensitive foldCase tagName "Code" = false →
          generateEncodable foldCase tagName = some Variant.protocolStructure)
      ∧ (containsCaseInsensitive foldCase tagName "Structure" = false →
          containsCaseInsensitive foldCase tagName "Data" = true →
          containsCaseInsensitive foldCase tagName "Code" = false →
          generateEncodable foldCase tagName = some Variant.protocolField)
      ∧ (containsCaseInsensitive foldCase tagName "Structure" = false →
          containsCaseInsensitive foldCase tagName "Data" = false →
          containsCaseInsensitive foldCase tagName "Code" = true →
          generateEncodable foldCase tagName = some Variant.protocolCode)
      ∧ (∀ before word after str : String,
          word.data.map foldCase = str.data.map foldCase →
          tagName = before ++ word ++ after →
          containsCaseInsensitive foldCase tagName str = true) := by
  refine ⟨?_, ?_, ?_, ?_, ?_⟩
  · cases h1 : containsCaseInsensitive foldCase tagName "Structure" <;>
      cases h2 : containsCaseInsensitive foldCase tagName "Data" <;>
      cases h3 : containsCaseInsensitive foldCase tagName "Code" <;>
      simp [generateEncodable, h1, h2, h3]
  · intro h1 h2 h3; simp [generateEncodable, h1]
  · intro h1 h2 h3; simp [generateEncodable, h1, h2]
  · intro h1 h2 h3; simp [generateEncodable, h1, h2, h3]
  · intro before word after str hword htag
    rw [htag]
    exact containsCaseInsensitive_of_surrounded foldCase before word after str hword

/-- Witness for `factory_dispatch_on_tag`, with the case folding of the ASCII
letters: the tag `myDATAfield` yields the scalar field variant and the tag
`Enum` yields no object. -/
theorem factory_dispatch_on_tag_witness :
    generateEncodable Char.toLower "myDATAfield" = some Variant.protocolField
      ∧ generateEncodable Char.toLower "Enum" = none :=
  ⟨(factory_dispatch_on_tag Char.toLower "myDATAfield").2.2.1 (by decide) (by decide)
      (by decide),
    (factory_dispatch_on_tag Char.toLower "Enum").1.mpr ⟨by decide, by decide, by decide⟩⟩

/-- Claim C17: `getReturnCode` depends only on the flag and on the target
language: for C it is `1` for positive and `0` for negative, for every other
language `true` and `false`; the positive and the negative code differ for
every language, and the two conventions are never mixed within one
language. -/
theorem return_code_convention (e : Encodable) :
    (e.support.language = LanguageType.c_language →
        getReturnCode e true = "1" ∧ getReturnCode e false = "0")
      ∧ (e.support.language ≠ LanguageType.c_language →
        getReturnCode e true = "true" ∧ getReturnCode e false = "false")
      ∧ getReturnCode e true ≠ getReturnCode e false
      ∧ (getReturnCode e true = "1" ↔ getReturnCode e false = "0")
      ∧ (getReturnCode e true = "true" ↔ getReturnCode e false = "false")
      ∧ (∀ (other : Encodable) (positive : Bool),
          other.support.language = e.support.language →
          getReturnCode other positive = getReturnCode e positive) := by
  refine ⟨?_, ?_, ?_, ?_, ?_, ?_⟩
  · intro h; simp [getReturnCode, h]
  · intro h; simp [getReturnCode, h]
  · cases h : e.support.language <;> simp [getReturnCode, h]
  · cases h : e.support.language <;> simp [getReturnCode, h]
  · cases h : e.support.language <;> simp [getReturnCode, h]
  · intro other positive h
    simp [getReturnCode, h]

/-- Witness for `return_code_convention`: the C aggregate `date` returns `1`
and `0`, the C++ one `true` and `false`. -/
theorem return_code_convention_witness :
    (getReturnCode (sampleAggregate LanguageType.c_language) true = "1"
        ∧ getReturnCode (sampleAggregate LanguageType.c_language) false = "0")
      ∧ (getReturnCode (sampleAggregate LanguageType.cpp_language) true = "true"
        ∧ getReturnCode (sampleAggregate LanguageType.cpp_language) false = "false") :=
  ⟨(return_code_convention (sampleAggregate LanguageType.c_language)).1 (by decide),
    (return_code_convention (sampleAggregate LanguageType.cpp_language)).2.1 (by decide)⟩

end Factory

/-! ## Properties of the field predicates -/

section Predicates

open ProtocolField

/-- Claim C14 as stated fails: the sample field that carries the default `7`
and the constant `3`, encoded and in memory, uses defaults and is constant at
once. -/
theorem uses_defaults_and_constant_together :
    usesDefaults (sampleField "7" "3" false) = true
      ∧ isNotEncoded (sampleField "7" "3" false) = false
      ∧ isConstant (sampleField "7" "3" false) = true
      ∧ ¬ (usesDefaults (sampleField "7" "3" false) = true →
          isNotEncoded (sampleField "7" "3" false) = false
          ∧ isConstant (sampleField "7" "3" false) = false) := by
  decide

/-- Claim C14, amended: `usesDefaults()` is true exactly for the fields that
carry a default string and are encoded, so it implies `!isNotEncoded()` and a
default is never substituted for a field that is not transmitted; it implies
`!isConstant()` for the fields that carry no constant string and whose
in-memory type is not null, and for a field that uses defaults `isConstant()`
holds exactly when it carries a constant string or its in-memory type is
null. -/
theorem uses_defaults_only_when_encoded (f : ProtocolField) :
    (usesDefaults f = true ↔ (f.defaultString ≠ "" ∧ f.encodedType.isNull = false))
      ∧ (usesDefaults f = true → isNotEncoded f = false)
      ∧ (usesDefaults f = true → f.constantString = "" → f.inMemoryType.isNull = false →
          isConstant f = false)
      ∧ (usesDefaults f = true →
          (isConstant f = true ↔ (f.constantString ≠ "" ∨ f.inMemoryType.isNull = true))) := by
  refine ⟨?_, ?_, ?_, ?_⟩
  · simp [usesDefaults, isDefault, isNotEncoded]
  · simp [usesDefaults, isDefault, isNotEncoded]
  · intro _ hc hn
    simp [isConstant, hc, hn]
  · intro _
    simp [isConstant]

/-- Witness for `uses_defaults_only_when_encoded`: the sample field with the
default `7` and no constant uses defaults, is encoded and is not constant. -/
theorem uses_defaults_only_when_encoded_witness :
    usesDefaults (sampleField "7" "" false) = true
      ∧ isNotEncoded (sampleField "7" "" false) = false
      ∧ isConstant (sampleField "7" "" false) = false :=
  ⟨by decide,
    (uses_defaults_only_when_encoded (sampleField "7" "" false)).2.1 (by decide),
    (uses_defaults_only_when_encoded (sampleField "7" "" false)).2.2.1 (by decide) (by decide)
      (by decide)⟩

/-- Claim C15: `isConstant()` holds exactly when the constant string is not
empty or the in-memory type is null, and `isNotInMemory()` exactly when the
in-memory type is null or `overridesPrevious` is set; hence a field whose
in-memory type is null is both constant and not in memory, and a field is in
memory exactly when its in-memory type is not null and it does not override a
previous field. -/
theorem constant_and_not_in_memory_iff (f : ProtocolField) :
    (isConstant f = true ↔ (f.constantString ≠ "" ∨ f.inMemoryType.isNull = true))
      ∧ (isNotInMemory f = true
        ↔ (f.inMemoryType.isNull = true ∨ f.overridesPrevious = true))
      ∧ (f.inMemoryType.isNull = true → isConstant f = true ∧ isNotInMemory f = true)
      ∧ (isNotInMemory f = false
        ↔ (f.inMemoryType.isNull = false ∧ f.overridesPrevious = false)) := by
  refine ⟨?_, ?_, ?_, ?_⟩
  · simp [isConstant]
  · simp [isNotInMemory]
  · intro h; simp [isConstant, isNotInMemory, h]
  · simp [isNotInMemory]

/-- Claim C16: a field with `overridesPrevious` set is not in memory whatever
its types, so the four `Encodable` generators of its own parameter (encode and
decode signature, encode and decode parameter comment) return the empty
string, and it does not invalidate a previous default; after
`clearOverridesPrevious()` the field is not in memory exactly when its
in-memory type is null. -/
theorem overriding_field_has_no_parameter (f : ProtocolField)
    (h : f.overridesPrevious = true) :
    isNotInMemory f = true
      ∧ overridesPreviousEncodable f = true
      ∧ Encodable.getEncodeSignature (toEncodable f) = ""
      ∧ Encodable.getDecodeSignature (toEncodable f) = ""
      ∧ Encodable.getEncodeParameterComment (toEncodable f) = ""
      ∧ Encodable.getDecodeParameterComment (toEncodable f) = ""
      ∧ invalidatesPreviousDefault f = false
      ∧ overridesPreviousEncodable (clearOverridesPrevious f) = false
      ∧ (isNotInMemory (clearOverridesPrevious f) = true ↔ f.inMemoryType.isNull = true) := by
  have hM : isNotInMemory f = true := by simp [isNotInMemory, h]
  refine ⟨hM, h, ?_, ?_, ?_, ?_, ?_, rfl, ?_⟩
  · simp [Encodable.getEncodeSignature, toEncodable, hM]
  · simp [Encodable.getDecodeSignature, toEncodable, hM]
  · simp [Encodable.getEncodeParameterComment, toEncodable, hM]
  · simp [Encodable.getDecodeParameterComment, toEncodable, hM]
  · simp [invalidatesPreviousDefault, h]
  · simp [isNotInMemory, clearOverridesPrevious]

/-- Witness for `overriding_field_has_no_parameter`: the sample field with the
override flag set has an empty decode signature, and is in memory again once
the flag is cleared. -/
theorem overriding_field_has_no_parameter_witness :
    (sampleField "" "" true).overridesPrevious = true
      ∧ Encodable.getDecodeSignature (toEncodable (sampleField "" "" true)) = ""
      ∧ isNotInMemory (clearOverridesPrevious (sampleField "" "" true)) = false :=
  ⟨by decide,
    (overriding_field_has_no_parameter (sampleField "" "" true) (by decide)).2.2.2.1,
    by decide⟩

end Predicates

/-! ## Closing a bitfield run -/

section BitfieldGroup

open ProtocolField

/-- Claim C18: when a chained run of bitfields (the first member starts at
bit 0, each later member results from `setStartingBitCount` with its
predecessor's `getEndingBitCount()`) is closed, every member of the run has
the same `groupBits`, and that common value is the smallest multiple of 8 that
is at least the sum of the declared widths; closing keeps the number of
members. -/
theorem closed_run_shares_group_bits (computeEncodedLength : ProtocolField → String)
    (first : ProtocolField) (rest : List ProtocolField)
    (hfirst : first.bitfieldData.startingBitCount = 0)
    (hchain : List.Chain
      (fun p q => ∃ q0, q = setStartingBitCount computeEncodedLength q0 (getEndingBitCount p))
      first rest) :
    ∃ groupBits : Int,
      (∀ f ∈ closeBitfieldRun (first :: rest), f.bitfieldData.groupBits = groupBits)
        ∧ (∀ f ∈ closeBitfieldRun (first :: rest), ∀ g ∈ closeBitfieldRun (first :: rest),
            f.bitfieldData.groupBits = g.bitfieldData.groupBits)
        ∧ 8 ∣ groupBits
        ∧ ((first :: rest).map (fun f => f.encodedType.bits)).sum ≤ groupBits
        ∧ (∀ m : Int, 8 ∣ m → ((first :: rest).map (fun f => f.encodedType.bits)).sum ≤ m →
            groupBits ≤ m)
        ∧ (closeBitfieldRun (first :: rest)).length = (first :: rest).length := by
  have hend := chained_run_end computeEncodedLength rest first hchain
  rw [hfirst, zero_add] at hend
  have hlast : (first :: rest).getLast? = some ((first :: rest).getLast
      (List.cons_ne_nil first rest)) := List.getLast?_eq_getLast _ _
  have hclosed : ∀ f ∈ closeBitfieldRun (first :: rest),
      f.bitfieldData.groupBits
        = (((first :: rest).map (fun f => f.encodedType.bits)).sum + 7) / 8 * 8 := by
    intro f hf
    unfold closeBitfieldRun at hf
    rw [hlast] at hf
    simp only [List.mem_map] at hf
    obtain ⟨f0, _, rfl⟩ := hf
    simp only []
    rw [hend]
  refine ⟨(((first :: rest).map (fun f => f.encodedType.bits)).sum + 7) / 8 * 8,
    hclosed, ?_, ?_, ?_, ?_, ?_⟩
  · intro f hf g hg
    rw [hclosed f hf, hclosed g hg]
  · exact Dvd.intro_left _ rfl
  · omega
  · intro m hm hle
    obtain ⟨k, rfl⟩ := hm
    omega
  · unfold closeBitfieldRun
    rw [hlast]
    simp

/-- Witness for `closed_run_shares_group_bits`: the run of three bitfields of
widths 3, 5 and 4 (12 bits) is closed with `groupBits` 16 in every member. -/
theorem closed_run_shares_group_bits_witness :
    (closeBitfieldRun
        (sampleBitfield "a" 3 ::
          [setStartingBitCount sampleComputeEncodedLength (sampleBitfield "b" 5)
              (getEndingBitCount (sampleBitfield "a" 3)),
            setStartingBitCount sampleComputeEncodedLength (sampleBitfield "c" 4)
              (getEndingBitCount
                (setStartingBitCount sampleComputeEncodedLength (sampleBitfield "b" 5)
                  (getEndingBitCount (sampleBitfield "a" 3))))])).map
        (fun f => f.bitfieldData.groupBits) = [16, 16, 16]
      ∧ ∃ groupBits : Int,
        ∀ f ∈ closeBitfieldRun
          (sampleBitfield "a" 3 ::
            [setStartingBitCount sampleComputeEncodedLength (sampleBitfield "b" 5)
                (getEndingBitCount (sampleBitfield "a" 3)),
              setStartingBitCount sampleComputeEncodedLength (sampleBitfield "c" 4)
                (getEndingBitCount
                  (setStartingBitCount sampleComputeEncodedLength (sampleBitfield "b" 5)
                    (getEndingBitCount (sampleBitfield "a" 3))))]),
          f.bitfieldData.groupBits = groupBits :=
  ⟨by decide,
    (closed_run_shares_group_bits sampleComputeEncodedLength (sampleBitfield "a" 3)
      [setStartingBitCount sampleComputeEncodedLength (sampleBitfield "b" 5)
          (getEndingBitCount (sampleBitfield "a" 3)),
        setStartingBitCount sampleComputeEncodedLength (sampleBitfield "c" 4)
          (getEndingBitCount
            (setStartingBitCount sampleComputeEncodedLength (sampleBitfield "b" 5)
              (getEndingBitCount (sampleBitfield "a" 3))))]
      rfl
      (List.Chain.cons ⟨sampleBitfield "b" 5, rfl⟩
        (List.Chain.cons ⟨sampleBitfield "c" 4, rfl⟩ List.Chain.nil))).imp
      (fun _ h => h.1)⟩

end BitfieldGroup

/-! ## Encode and decode in structure-member context -/

section MemberContext

open Encodable

/-- Claim C20: in structure-member context the encode and the decode accessor
agree for every field, every target language and every variable, and hence so
do the encode and the decode array iteration code. -/
theorem member_context_encode_eq_decode (TAB_IN spacing : String) (e : Encodable)
    (v : String) :
    getEncodeFieldAccess e true v = getDecodeFieldAccess e true v
      ∧ getEncodeArrayIterationCode TAB_IN e spacing true
        = getDecodeArrayIterationCode TAB_IN e spacing true := by
  have hacc : ∀ w : String, getEncodeFieldAccess e true w = getDecodeFieldAccess e true w := by
    intro w
    by_cases hw : w = e.name <;> cases hP : e.isPrimitive <;>
      cases hL : e.support.language <;>
      simp [getEncodeFieldAccess, getDecodeFieldAccess, hw, hP, hL]
  refine ⟨hacc v, ?_⟩
  simp only [getEncodeArrayIterationCode, getDecodeArrayIterationCode, hacc]

end MemberContext

/-! ## Encode and decode in free-parameter context -/

section ParameterContext

open Encodable

/-- Claim C21: in free-parameter context, for a field in which a string is
primitive, every target language and every variable `v`: if `v` is not the
name of the field, or the field is a primitive that is neither an array nor a
string and is accessed as itself, the encode access is `v` and the decode
access is `(*v)`; in every other case (the field accessed as itself being a
string, an array or an aggregate) the decode access equals the encode
access. -/
theorem parameter_context_encode_vs_decode (e : Encodable) (v : String)
    (hSP : e.isString = true → e.isPrimitive = true) :
    ((v ≠ e.name ∨ (e.isPrimitive = true ∧ e.isArray = false ∧ e.isString = false)) →
        getEncodeFieldAccess e false v = v
        ∧ getDecodeFieldAccess e false v = "(*" ++ v ++ ")")
      ∧ (v = e.name → (e.isString = true ∨ e.isArray = true ∨ e.isPrimitive = false) →
        getDecodeFieldAccess e false v = getEncodeFieldAccess e false v) := by
  constructor
  · intro h
    by_cases hv : v = e.name
    · rcases h with h | ⟨hP, hA, hS⟩
      · exact absurd hv h
      · simp [getEncodeFieldAccess, getDecodeFieldAccess, hv, hP, hA, hS]
    · simp [getEncodeFieldAccess, getDecodeFieldAccess, hv]
  · intro hv h
    subst hv
    cases hS : e.isString
    · cases hA : e.isArray
      · have hP : e.isPrimitive = false := by
          rcases h with h | h | h
          · rw [hS] at h; exact absurd h (by decide)
          · rw [hA] at h; exact absurd h (by decide)
          · exact h
        simp [getEncodeFieldAccess, getDecodeFieldAccess, hS, hA, hP]
      · cases hP : e.isPrimitive <;> cases h2 : e.is2dArray <;>
          cases hL : e.support.language <;>
          simp [getEncodeFieldAccess, getDecodeFieldAccess, hS, hA, hP, h2, hL]
    · have hP := hSP hS
      simp [getEncodeFieldAccess, getDecodeFieldAccess, hS, hP]

/-- Witness for `parameter_context_encode_vs_decode`: for the primitive 1D
array `data`, the bound variable `count` is `count` on encode and `(*count)`
on decode, and the field itself is `data[_pg_i]` on both. -/
theorem parameter_context_encode_vs_decode_witness :
    ((sampleArray true false "count" "").isString = true
        → (sampleArray true false "count" "").isPrimitive = true)
      ∧ getEncodeFieldAccess (sampleArray true false "count" "") false "count" = "count"
      ∧ getDecodeFieldAccess (sampleArray true false "count" "") false "count" = "(*count)"
      ∧ getDecodeFieldAccess (sampleArray true false "count" "") false "data" = "data[_pg_i]" :=
  ⟨by decide,
    ((parameter_context_encode_vs_decode (sampleArray true false "count" "") "count"
      (by decide)).1 (Or.inl (by decide))).1,
    ((parameter_context_encode_vs_decode (sampleArray true false "count" "") "count"
      (by decide)).1 (Or.inl (by decide))).2,
    ((parameter_context_encode_vs_decode (sampleArray true false "count" "") "data"
      (by decide)).2 (by decide) (Or.inr (Or.inl (by decide)))).trans (by decide)⟩

end ParameterContext

/-! ## Iterators and index suffixes -/

section Iterators

open ProtocolField

/-- Claim C22: for an encoded `ProtocolField` (a 2D array being an array), the
encode access to the field itself carries `[_pg_i]` exactly when
`usesEncodeIterator()` is true and `[_pg_j]` exactly when
`uses2ndEncodeIterator()` is true; when moreover the in-memory type is not
null, the decode access carries `[_pg_i]` exactly when `usesDecodeIterator()`
is true and `[_pg_j]` exactly when `uses2ndDecodeIterator()` is true (without
any index it is the plain access or `(*name)`); and `usesDecodeIterator()`
implies `usesEncodeIterator()`, `uses2ndEncodeIterator()` implies
`usesEncodeIterator()`. -/
theorem iterator_flag_iff_index_used (f : ProtocolField) (m : Bool)
    (h2d : f.is2dArray = true → f.isArray = true) (hE : isNotEncoded f = false) :
    (∃ amp, (amp = "" ∨ amp = "&") ∧ Encodable.getEncodeFieldAccess (toEncodable f) m f.name
        = amp ++ ((if m = true ∧ f.support.language = LanguageType.c_language
                    then "_pg_user->" else "") ++ f.name
            ++ (if usesEncodeIterator f = true then "[_pg_i]" else "")
            ++ (if uses2ndEncodeIterator f = true then "[_pg_j]" else "")))
      ∧ (f.inMemoryType.isNull = false →
        (∃ amp, (amp = "" ∨ amp = "&") ∧ Encodable.getDecodeFieldAccess (toEncodable f) m f.name
          = amp ++ ((if m = true ∧ f.support.language = LanguageType.c_language
                      then "_pg_user->" else "") ++ f.name
              ++ (if usesDecodeIterator f = true then "[_pg_i]" else "")
              ++ (if uses2ndDecodeIterator f = true then "[_pg_j]" else "")))
        ∨ (usesDecodeIterator f = false ∧ uses2ndDecodeIterator f = false
          ∧ Encodable.getDecodeFieldAccess (toEncodable f) m f.name = "(*" ++ f.name ++ ")"))
      ∧ (usesDecodeIterator f = true → usesEncodeIterator f = true)
      ∧ (uses2ndEncodeIterator f = true → usesEncodeIterator f = true) := by
  have hE2 : f.encodedType.isNull = false := hE
  refine ⟨?_, ?_, ?_, ?_⟩
  · by_cases hamp : (!isPrimitive f
        && decide (f.support.language = LanguageType.c_language) && (m || f.isArray)) = true
    · refine ⟨"&", Or.inr rfl, ?_⟩
      cases m <;> cases hL : f.support.language <;> cases hA : f.isArray <;>
        cases h2 : f.is2dArray <;> cases hS : f.inMemoryType.isString <;>
        simp_all [Encodable.getEncodeFieldAccess, toEncodable, usesEncodeIterator, uses2ndEncodeIterator,
          isNotEncoded, isString, isPrimitive, String.append_assoc]
    · refine ⟨"", Or.inl rfl, ?_⟩
      cases m <;> cases hL : f.support.language <;> cases hA : f.isArray <;>
        cases h2 : f.is2dArray <;> cases hS : f.inMemoryType.isString <;>
        simp_all [Encodable.getEncodeFieldAccess, toEncodable, usesEncodeIterator, uses2ndEncodeIterator,
          isNotEncoded, isString, isPrimitive, String.append_assoc]
  · intro hM
    by_cases hstar : m = false ∧ f.inMemoryType.isString = false ∧ f.isArray = false
        ∧ f.inMemoryType.isStruct = false
    · obtain ⟨hm, hS, hA, hP⟩ := hstar
      right
      have h2 : f.is2dArray = false := by
        cases h : f.is2dArray
        · rfl
        · rw [h2d h] at hA; exact absurd hA (by decide)
      simp [Encodable.getDecodeFieldAccess, toEncodable, usesDecodeIterator, uses2ndDecodeIterator,
        isString, isPrimitive, hm, hS, hA, hP, h2]
    · left
      by_cases hamp : (!isPrimitive f
          && decide (f.support.language = LanguageType.c_language)
          && (m || (f.isArray && !f.inMemoryType.isString))) = true
      · refine ⟨"&", Or.inr rfl, ?_⟩
        cases m <;> cases hL : f.support.language <;> cases hA : f.isArray <;>
          cases h2 : f.is2dArray <;> cases hS : f.inMemoryType.isString <;>
          cases hP : f.inMemoryType.isStruct <;>
          simp_all [Encodable.getDecodeFieldAccess, toEncodable, usesDecodeIterator,
            uses2ndDecodeIterator, isNotEncoded, isString, isPrimitive, String.append_assoc]
      · refine ⟨"", Or.inl rfl, ?_⟩
        cases m <;> cases hL : f.support.language <;> cases hA : f.isArray <;>
          cases h2 : f.is2dArray <;> cases hS : f.inMemoryType.isString <;>
          cases hP : f.inMemoryType.isStruct <;>
          simp_all [Encodable.getDecodeFieldAccess, toEncodable, usesDecodeIterator,
            uses2ndDecodeIterator, isNotEncoded, isString, isPrimitive, String.append_assoc]
  · simp only [usesDecodeIterator, usesEncodeIterator, Bool.and_eq_true]
    rintro ⟨⟨⟨hA, _⟩, hN⟩, hS⟩
    exact ⟨⟨hA, hN⟩, hS⟩
  · simp only [uses2ndEncodeIterator, usesEncodeIterator, Bool.and_eq_true]
    rintro ⟨⟨h2, hN⟩, hS⟩
    exact ⟨⟨h2d h2, hN⟩, hS⟩

/-- Witness for `iterator_flag_iff_index_used`: the sample 2D array field
`data` uses both encode iterators and is accessed as
`_pg_user->data[_pg_i][_pg_j]`. -/
theorem iterator_flag_iff_index_used_witness :
    ((sampleArrayField true).is2dArray = true → (sampleArrayField true).isArray = true)
      ∧ isNotEncoded (sampleArrayField true) = false
      ∧ usesEncodeIterator (sampleArrayField true) = true
      ∧ uses2ndEncodeIterator (sampleArrayField true) = true
      ∧ Encodable.getEncodeFieldAccess (toEncodable (sampleArrayField true)) true "data"
          = "_pg_user->data[_pg_i][_pg_j]"
      ∧ (uses2ndEncodeIterator (sampleArrayField true) = true
          → usesEncodeIterator (sampleArrayField true) = true) :=
  ⟨by decide, by decide, by decide, by decide, by decide,
    (iterator_flag_iff_index_used (sampleArrayField true) true (by decide)
      (by decide)).2.2.2⟩

end Iterators

/-! ## One loop per index suffix -/

section Dimensions

open Encodable

/-- The encode iteration code is the first `n` of its two loop lines, where
`n` is 0 for a field that is not an array, 1 for a 1D array and 2 for a 2D
array: the line over `_pg_i` at `spacing`, then the line over `_pg_j` one
`TAB_IN` deeper. -/
theorem encode_iteration_code_lines (TAB_IN spacing : String) (e : Encodable) (m : Bool) :
    getEncodeArrayIterationCode TAB_IN e spacing m
      = String.join (List.take
          (if e.isArray = true then (if e.is2dArray = true then 2 else 1) else 0)
          [spacing ++ "for(_pg_i = 0; _pg_i < "
              ++ (if e.variableArray = "" then e.array
                  else "(unsigned)" ++ getEncodeFieldAccess e m e.variableArray
                    ++ " && _pg_i < " ++ e.array)
              ++ "; _pg_i++)\n",
            spacing ++ TAB_IN ++ "for(_pg_j = 0; _pg_j < "
              ++ (if e.variable2dArray = "" then e.array2d
                  else "(unsigned)" ++ getEncodeFieldAccess e m e.variable2dArray
                    ++ " && _pg_j < " ++ e.array2d)
              ++ "; _pg_j++)\n"]) := by
  have hu : ∀ x : String, "for(_pg_i = 0; _pg_i < " ++ ("(unsigned)" ++ x)
      = "for(_pg_i = 0; _pg_i < (unsigned)" ++ x := fun x => by
    rw [← String.append_assoc]
    exact congrArg (fun t => t ++ x) (by decide)
  have hu2 : ∀ x : String, "for(_pg_j = 0; _pg_j < " ++ ("(unsigned)" ++ x)
      = "for(_pg_j = 0; _pg_j < (unsigned)" ++ x := fun x => by
    rw [← String.append_assoc]
    exact congrArg (fun t => t ++ x) (by decide)
  cases hA : e.isArray <;> cases h2 : e.is2dArray <;>
    by_cases hV : e.variableArray = "" <;> by_cases hV2 : e.variable2dArray = "" <;>
    simp [getEncodeArrayIterationCode, hA, h2, hV, hV2, hu, hu2, String.join,
      String.append_assoc]

/-- The decode iteration code is the first `n` of its two loop lines, where
`n` is 0 for a field that is not an array, 1 for a 1D array and 2 for a 2D
array: the line over `_pg_i` at `spacing`, then the line over `_pg_j` one
`TAB_IN` deeper. -/
theorem decode_iteration_code_lines (TAB_IN spacing : String) (e : Encodable) (m : Bool) :
    getDecodeArrayIterationCode TAB_IN e spacing m
      = String.join (List.take
          (if e.isArray = true then (if e.is2dArray = true then 2 else 1) else 0)
          [spacing ++ "for(_pg_i = 0; _pg_i < "
              ++ (if e.variableArray = "" then e.array
                  else "(unsigned)" ++ getDecodeFieldAccess e m e.variableArray
                    ++ " && _pg_i < " ++ e.array)
              ++ "; _pg_i++)\n",
            spacing ++ TAB_IN ++ "for(_pg_j = 0; _pg_j < "
              ++ (if e.variable2dArray = "" then e.array2d
                  else "(unsigned)" ++ getDecodeFieldAccess e m e.variable2dArray
                    ++ " && _pg_j < " ++ e.array2d)
              ++ "; _pg_j++)\n"]) := by
  have hu : ∀ x : String, "for(_pg_i = 0; _pg_i < " ++ ("(unsigned)" ++ x)
      = "for(_pg_i = 0; _pg_i < (unsigned)" ++ x := fun x => by
    rw [← String.append_assoc]
    exact congrArg (fun t => t ++ x) (by decide)
  have hu2 : ∀ x : String, "for(_pg_j = 0; _pg_j < " ++ ("(unsigned)" ++ x)
      = "for(_pg_j = 0; _pg_j < (unsigned)" ++ x := fun x => by
    rw [← String.append_assoc]
    exact congrArg (fun t => t ++ x) (by decide)
  cases hA : e.isArray <;> cases h2 : e.is2dArray <;>
    by_cases hV : e.variableArray = "" <;> by_cases hV2 : e.variable2dArray = "" <;>
    simp [getDecodeArrayIterationCode, hA, h2, hV, hV2, hu, hu2, String.join,
      String.append_assoc]

/-- The encode access to a field that is not a string is the name (behind the
structure pointer and a possible ampersand) followed by the first `n` of the
suffixes `[_pg_i]`, `[_pg_j]`. -/
theorem encode_access_suffixes (e : Encodable) (m : Bool) (hS : e.isString = false) :
    ∃ amp, (amp = "" ∨ amp = "&") ∧ getEncodeFieldAccess e m e.name
      = amp ++ ((if m = true ∧ e.support.language = LanguageType.c_language
                  then "_pg_user->" else "") ++ e.name)
        ++ String.join (List.take
            (if e.isArray = true then (if e.is2dArray = true then 2 else 1) else 0)
            ["[_pg_i]", "[_pg_j]"]) := by
  by_cases hamp : (!e.isPrimitive
      && decide (e.support.language = LanguageType.c_language) && (m || e.isArray)) = true
  · refine ⟨"&", Or.inr rfl, ?_⟩
    cases m <;> cases hL : e.support.language <;> cases hA : e.isArray <;>
      cases h2 : e.is2dArray <;>
      simp_all [getEncodeFieldAccess, String.join, String.append_assoc]
  · refine ⟨"", Or.inl rfl, ?_⟩
    cases m <;> cases hL : e.support.language <;> cases hA : e.isArray <;>
      cases h2 : e.is2dArray <;>
      simp_all [getEncodeFieldAccess, String.join, String.append_assoc]

/-- The decode access to a field that is not a string is the name (behind the
structure pointer and a possible ampersand) followed by the first `n` of the
suffixes `[_pg_i]`, `[_pg_j]`, or `(*name)` for a primitive parameter that is
not an array. -/
theorem decode_access_suffixes (e : Encodable) (m : Bool) (hS : e.isString = false) :
    (∃ amp, (amp = "" ∨ amp = "&") ∧ getDecodeFieldAccess e m e.name
      = amp ++ ((if m = true ∧ e.support.language = LanguageType.c_language
                  then "_pg_user->" else "") ++ e.name)
        ++ String.join (List.take
            (if e.isArray = true then (if e.is2dArray = true then 2 else 1) else 0)
            ["[_pg_i]", "[_pg_j]"]))
    ∨ ((if e.isArray = true then (if e.is2dArray = true then 2 else 1) else 0) = 0
      ∧ getDecodeFieldAccess e m e.name = "(*" ++ e.name ++ ")") := by
  by_cases hstar : m = false ∧ e.isArray = false ∧ e.isPrimitive = true
  · obtain ⟨hm, hA, hP⟩ := hstar
    right
    simp [getDecodeFieldAccess, hm, hA, hP, hS]
  · left
    by_cases hamp : (!e.isPrimitive
        && decide (e.support.language = LanguageType.c_language) && (m || e.isArray)) = true
    · refine ⟨"&", Or.inr rfl, ?_⟩
      cases m <;> cases hL : e.support.language <;> cases hA : e.isArray <;>
        cases h2 : e.is2dArray <;> cases hP : e.isPrimitive <;>
        simp_all [getDecodeFieldAccess, String.join, String.append_assoc]
    · refine ⟨"", Or.inl rfl, ?_⟩
      cases m <;> cases hL : e.support.language <;> cases hA : e.isArray <;>
        cases h2 : e.is2dArray <;> cases hP : e.isPrimitive <;>
        simp_all [getDecodeFieldAccess, String.join, String.append_assoc]

/-- An access expression holds no line feed unless the accessed variable
does. -/
theorem access_without_linefeed (e : Encodable) (m : Bool) (v : String)
    (hv : '\n' ∉ v.data) :
    '\n' ∉ (getEncodeFieldAccess e m v).data ∧ '\n' ∉ (getDecodeFieldAccess e m v).data := by
  have h1 : '\n' ∉ "_pg_user->".data := by decide
  have h2 : '\n' ∉ "[_pg_i]".data := by decide
  have h3 : '\n' ∉ "[_pg_j]".data := by decide
  have h4 : '\n' ∉ "&".data := by decide
  have h5 : '\n' ∉ "(*".data := by decide
  have h6 : '\n' ∉ ")".data := by decide
  constructor
  · unfold getEncodeFieldAccess
    simp only []
    split_ifs <;> simp [String.data_append, hv, h1, h2, h3, h4]
  · unfold getDecodeFieldAccess
    simp only []
    split_ifs <;> simp [String.data_append, hv, h1, h2, h3, h4, h5, h6]

/-- The bound of a loop line holds no line feed when the fixed count and the
access to the variable count hold none. -/
theorem bound_without_linefeed (variableCount fixed access conj : String)
    (hfixed : '\n' ∉ fixed.data) (haccess : '\n' ∉ access.data)
    (hconj : '\n' ∉ conj.data) :
    '\n' ∉ (if variableCount = "" then fixed
      else "(unsigned)" ++ access ++ conj ++ fixed).data := by
  have l3 : '\n' ∉ "(unsigned)".data := by decide
  split_ifs
  · exact hfixed
  · simp only [String.data_append, List.mem_append, not_or]
    exact ⟨⟨⟨l3, haccess⟩, hconj⟩, hfixed⟩

/-- The first `n` of the two loop lines hold exactly `n` line feeds when
their indentations and bounds hold none. -/
theorem count_linefeed_loop_lines (n : Nat) (before1 before2 bound1 bound2 : String)
    (h1 : '\n' ∉ before1.data) (h2 : '\n' ∉ before2.data)
    (hb1 : '\n' ∉ bound1.data) (hb2 : '\n' ∉ bound2.data)
    (hn : n = 0 ∨ n = 1 ∨ n = 2) :
    (String.join (List.take n
      [before1 ++ "for(_pg_i = 0; _pg_i < " ++ bound1 ++ "; _pg_i++)\n",
        before2 ++ "for(_pg_j = 0; _pg_j < " ++ bound2 ++ "; _pg_j++)\n"])).data.count '\n'
      = n := by
  have l1 : "for(_pg_i = 0; _pg_i < ".data.count '\n' = 0 := by decide
  have l2 : "for(_pg_j = 0; _pg_j < ".data.count '\n' = 0 := by decide
  have l6 : "; _pg_i++)\n".data.count '\n' = 1 := by decide
  have l7 : "; _pg_j++)\n".data.count '\n' = 1 := by decide
  have c1 := List.count_eq_zero_of_not_mem h1
  have c2 := List.count_eq_zero_of_not_mem h2
  have c3 := List.count_eq_zero_of_not_mem hb1
  have c4 := List.count_eq_zero_of_not_mem hb2
  rcases hn with rfl | rfl | rfl
  · rfl
  · simp only [List.take_succ_cons, List.take_zero, String.join, List.foldl_cons,
      List.foldl_nil, String.data_append, List.count_append, l1, l6, c1, c3]
    rfl
  · simp only [List.take_succ_cons, List.take_zero, List.take_nil, String.join,
      List.foldl_cons, List.foldl_nil, String.data_append, List.count_append, l1, l2, l6, l7,
      c1, c2, c3, c4]
    rfl

/-- The pointer part of an access is empty or the structure pointer. -/
theorem ite_pointer_cases (c : Prop) [Decidable c] :
    (if c then "_pg_user->" else "") = "" ∨ (if c then "_pg_user->" else "") = "_pg_user->" := by
  split_ifs
  · exact Or.inr rfl
  · exact Or.inl rfl

/-- An access made of a possible ampersand, a possible structure pointer, a
name without `[` and the first `n` of the two index suffixes holds exactly `n`
opening brackets. -/
theorem count_bracket_access (n : Nat) (amp pointer name : String)
    (hamp : amp = "" ∨ amp = "&") (hpointer : pointer = "" ∨ pointer = "_pg_user->")
    (hname : '[' ∉ name.data)
    (hn : n = 0 ∨ n = 1 ∨ n = 2) :
    (amp ++ (pointer ++ name) ++ String.join (List.take n ["[_pg_i]", "[_pg_j]"])).data.count '['
      = n := by
  have hn0 := List.count_eq_zero_of_not_mem hname
  have ha : amp.data.count '[' = 0 := by rcases hamp with rfl | rfl <;> decide
  have hp : pointer.data.count '[' = 0 := by rcases hpointer with rfl | rfl <;> decide
  have hs : (String.join (List.take n ["[_pg_i]", "[_pg_j]"])).data.count '[' = n := by
    rcases hn with rfl | rfl | rfl <;> decide
  rw [String.data_append, String.data_append, String.data_append, List.count_append,
    List.count_append, List.count_append, ha, hp, hn0, hs]
  omega

/-- The number of dimensions of a field is 0, 1 or 2. -/
theorem dimensions_cases (isArray is2dArray : Bool) :
    (if isArray = true then (if is2dArray = true then 2 else 1) else 0) = 0
      ∨ (if isArray = true then (if is2dArray = true then 2 else 1) else 0) = 1
      ∨ (if isArray = true then (if is2dArray = true then 2 else 1) else 0) = 2 := by
  cases isArray <;> cases is2dArray <;> simp

/-- Claim C23: for a field that is not a string, the number of `for` loops
emitted by the encode (decode) array iteration code equals the number of
index suffixes of the encode (decode) access to the field itself, namely `n`
= 0 for a field that is not an array, 1 for a 1D array, 2 for a 2D array.  The
iteration code is exactly the first `n` of two loop lines, the loop over
`_pg_i` at `spacing` and then the loop over `_pg_j` one `TAB_IN` deeper, each
given in full; the access is the name (behind the structure pointer and a
possible ampersand) followed by exactly the first `n` of the suffixes
`[_pg_i]`, `[_pg_j]` (decode of a primitive parameter that is not an array is
`(*name)`, with `n` = 0).  As texts: when none of `spacing`, `TAB_IN` and the
four bounds holds a line feed the code has exactly `n` line feeds, and when
the name holds no `[` the access has exactly `n` of them. -/
theorem loops_match_index_suffixes (TAB_IN spacing : String) (e : Encodable) (m : Bool)
    (hS : e.isString = false) :
    ∃ n : Nat,
      n = (if e.isArray = true then (if e.is2dArray = true then 2 else 1) else 0)
      ∧ getEncodeArrayIterationCode TAB_IN e spacing m
        = String.join (List.take n
            [spacing ++ "for(_pg_i = 0; _pg_i < "
                ++ (if e.variableArray = "" then e.array
                    else "(unsigned)" ++ getEncodeFieldAccess e m e.variableArray
                      ++ " && _pg_i < " ++ e.array)
                ++ "; _pg_i++)\n",
              spacing ++ TAB_IN ++ "for(_pg_j = 0; _pg_j < "
                ++ (if e.variable2dArray = "" then e.array2d
                    else "(unsigned)" ++ getEncodeFieldAccess e m e.variable2dArray
                      ++ " && _pg_j < " ++ e.array2d)
                ++ "; _pg_j++)\n"])
      ∧ (∃ amp, (amp = "" ∨ amp = "&") ∧ getEncodeFieldAccess e m e.name
          = amp ++ ((if m = true ∧ e.support.language = LanguageType.c_language
                      then "_pg_user->" else "") ++ e.name)
            ++ String.join (List.take n ["[_pg_i]", "[_pg_j]"]))
      ∧ getDecodeArrayIterationCode TAB_IN e spacing m
        = String.join (List.take n
            [spacing ++ "for(_pg_i = 0; _pg_i < "
                ++ (if e.variableArray = "" then e.array
                    else "(unsigned)" ++ getDecodeFieldAccess e m e.variableArray
                      ++ " && _pg_i < " ++ e.array)
                ++ "; _pg_i++)\n",
              spacing ++ TAB_IN ++ "for(_pg_j = 0; _pg_j < "
                ++ (if e.variable2dArray = "" then e.array2d
                    else "(unsigned)" ++ getDecodeFieldAccess e m e.variable2dArray
                      ++ " && _pg_j < " ++ e.array2d)
                ++ "; _pg_j++)\n"])
      ∧ ((∃ amp, (amp = "" ∨ amp = "&") ∧ getDecodeFieldAccess e m e.name
          = amp ++ ((if m = true ∧ e.support.language = LanguageType.c_language
                      then "_pg_user->" else "") ++ e.name)
            ++ String.join (List.take n ["[_pg_i]", "[_pg_j]"]))
        ∨ (n = 0 ∧ getDecodeFieldAccess e m e.name = "(*" ++ e.name ++ ")"))
      ∧ (∀ first second : String, (List.take n [first, second]).length = n)
      ∧ ((∀ s ∈ [spacing, TAB_IN, e.array, e.variableArray, e.array2d, e.variable2dArray],
            '\n' ∉ s.data) →
          (getEncodeArrayIterationCode TAB_IN e spacing m).data.count '\n' = n
          ∧ (getDecodeArrayIterationCode TAB_IN e spacing m).data.count '\n' = n)
      ∧ ('[' ∉ e.name.data →
          (getEncodeFieldAccess e m e.name).data.count '[' = n
          ∧ (getDecodeFieldAccess e m e.name).data.count '[' = n) := by
  have hEC := encode_iteration_code_lines TAB_IN spacing e m
  have hDC := decode_iteration_code_lines TAB_IN spacing e m
  have hEA := encode_access_suffixes e m hS
  have hDA := decode_access_suffixes e m hS
  refine ⟨_, rfl, hEC, hEA, hDC, hDA, ?_, ?_, ?_⟩
  · intro first second
    cases hA : e.isArray <;> cases h2 : e.is2dArray <;> simp
  · intro hlf
    simp only [List.mem_cons, List.mem_singleton, List.not_mem_nil, or_false,
      forall_eq_or_imp, forall_eq] at hlf
    obtain ⟨hsp, htab, harr, hva, harr2, hva2⟩ := hlf
    have hacc1 := access_without_linefeed e m e.variableArray hva
    have hacc2 := access_without_linefeed e m e.variable2dArray hva2
    have hst : '\n' ∉ (spacing ++ TAB_IN).data := by
      rw [String.data_append, List.mem_append]; exact fun h => h.elim hsp htab
    constructor
    · rw [hEC]
      exact count_linefeed_loop_lines _ _ _ _ _ hsp hst
        (bound_without_linefeed _ _ _ _ harr hacc1.1 (by decide))
        (bound_without_linefeed _ _ _ _ harr2 hacc2.1 (by decide)) (dimensions_cases _ _)
    · rw [hDC]
      exact count_linefeed_loop_lines _ _ _ _ _ hsp hst
        (bound_without_linefeed _ _ _ _ harr hacc1.2 (by decide))
        (bound_without_linefeed _ _ _ _ harr2 hacc2.2 (by decide)) (dimensions_cases _ _)
  · intro hname
    constructor
    · obtain ⟨amp, hamp, hacc⟩ := hEA
      rw [hacc]
      exact count_bracket_access _ _ _ _ hamp (ite_pointer_cases _) hname (dimensions_cases _ _)
    · rcases hDA with ⟨amp, hamp, hacc⟩ | ⟨hzero, hacc⟩
      · rw [hacc]
        exact count_bracket_access _ _ _ _ hamp (ite_pointer_cases _) hname (dimensions_cases _ _)
      · rw [hacc, hzero]
        have b5 : "(*".data.count '[' = 0 := by decide
        have b6 : ")".data.count '[' = 0 := by decide
        rw [String.data_append, String.data_append, List.count_append, List.count_append, b5,
          b6, List.count_eq_zero_of_not_mem hname]

/-- Witness for `loops_match_index_suffixes`: the primitive 2D array `data` as
a free parameter has the two loop lines over `_pg_i` and `_pg_j` and the two
suffixes `[_pg_i][_pg_j]`. -/
theorem loops_match_index_suffixes_witness :
    (sampleArray true true "" "").isString = false
      ∧ getEncodeArrayIterationCode "    " (sampleArray true true "" "") "" false
        = "for(_pg_i = 0; _pg_i < 10; _pg_i++)\n    for(_pg_j = 0; _pg_j < 4; _pg_j++)\n"
      ∧ getEncodeFieldAccess (sampleArray true true "" "") false "data" = "data[_pg_i][_pg_j]"
      ∧ ∃ n : Nat, n = 2
          ∧ (getEncodeArrayIterationCode "    " (sampleArray true true "" "") "" false).data.count
              '\n' = n
          ∧ (getEncodeFieldAccess (sampleArray true true "" "") false "data").data.count '['
              = n :=
  ⟨by decide, by decide, by decide,
    (loops_match_index_suffixes "    " "" (sampleArray true true "" "") false (by decide)).imp
      (fun _ h => ⟨h.1, (h.2.2.2.2.2.2.1 (by decide)).1, (h.2.2.2.2.2.2.2 (by decide)).1⟩)⟩

end Dimensions

/-! ## Precedence of the factory -/

section FactoryPrecedence

open Encodable

/-- Claim C24: when the tag name matches more than one category the variant is
chosen by the fixed precedence Structure over Data over Code: a tag that
contains `structure` (in any case) yields the aggregate variant whatever else
it contains, and a tag that contains `data` but not `structure` yields the
scalar field variant even if it contains `code`; the result is a function of
the tag name alone, and two tags with the same three containment answers yield
the same variant. -/
theorem factory_precedence_structure_data_code (foldCase : Char → Char) (tagName : String) :
    (containsCaseInsensitive foldCase tagName "Structure" = true →
        generateEncodable foldCase tagName = some Variant.protocolStructure)
      ∧ (containsCaseInsensitive foldCase tagName "Structure" = false →
          containsCaseInsensitive foldCase tagName "Data" = true →
          generateEncodable foldCase tagName = some Variant.protocolField)
      ∧ (∀ other : String,
          containsCaseInsensitive foldCase other "Structure"
            = containsCaseInsensitive foldCase tagName "Structure" →
          containsCaseInsensitive foldCase other "Data"
            = containsCaseInsensitive foldCase tagName "Data" →
          containsCaseInsensitive foldCase other "Code"
            = containsCaseInsensitive foldCase tagName "Code" →
          generateEncodable foldCase other = generateEncodable foldCase tagName) := by
  refine ⟨?_, ?_, ?_⟩
  · intro h1; simp [generateEncodable, h1]
  · intro h1 h2; simp [generateEncodable, h1, h2]
  · intro other h1 h2 h3
    simp only [generateEncodable, h1, h2, h3]

/-- Witness for `factory_precedence_structure_data_code`, with the case
folding of the ASCII letters: the tag `DataSTRUCTUREcode` yields the aggregate
variant and the tag `codeDATA` the scalar field variant. -/
theorem factory_precedence_structure_data_code_witness :
    generateEncodable Char.toLower "DataSTRUCTUREcode" = some Variant.protocolStructure
      ∧ containsCaseInsensitive Char.toLower "DataSTRUCTUREcode" "Data" = true
      ∧ generateEncodable Char.toLower "codeDATA" = some Variant.protocolField
      ∧ containsCaseInsensitive Char.toLower "codeDATA" "Code" = true :=
  ⟨(factory_precedence_structure_data_code Char.toLower "DataSTRUCTUREcode").1 (by decide),
    by decide,
    (factory_precedence_structure_data_code Char.toLower "codeDATA").2.1 (by decide)
      (by decide),
    by decide⟩

end FactoryPrecedence

/-! ## Frame and count of the keyword check -/

section KeywordFrame

open Encodable

/-- The number of warnings of one optional message. -/
theorem length_optional_message (c : Prop) [Decidable c] (message : String) :
    (if c then [message] else ([] : List String)).length = if c then 1 else 0 := by
  split <;> rfl

/-- The value left by the two checks of one name is the old value with zero,
one or two underscores prepended, two exactly when the old value is a keyword
and its underscored form is a ProtoGen variable name. -/
theorem renamed_underscore_count (keywords variablenames : List String) (x : String) :
    (((if x ∈ keywords then 1 else 0)
          + (if (if x ∈ keywords then "_" ++ x else x) ∈ variablenames then 1 else 0) = 0
        ∧ (if (if x ∈ keywords then "_" ++ x else x) ∈ variablenames
            then "_" ++ (if x ∈ keywords then "_" ++ x else x)
            else (if x ∈ keywords then "_" ++ x else x)) = x)
      ∨ ((if x ∈ keywords then 1 else 0)
          + (if (if x ∈ keywords then "_" ++ x else x) ∈ variablenames then 1 else 0) = 1
        ∧ (if (if x ∈ keywords then "_" ++ x else x) ∈ variablenames
            then "_" ++ (if x ∈ keywords then "_" ++ x else x)
            else (if x ∈ keywords then "_" ++ x else x)) = "_" ++ x)
      ∨ ((if x ∈ keywords then 1 else 0)
          + (if (if x ∈ keywords then "_" ++ x else x) ∈ variablenames then 1 else 0) = 2
        ∧ (if (if x ∈ keywords then "_" ++ x else x) ∈ variablenames
            then "_" ++ (if x ∈ keywords then "_" ++ x else x)
            else (if x ∈ keywords then "_" ++ x else x)) = "_" ++ ("_" ++ x)))
    ∧ ((if x ∈ keywords then 1 else 0)
          + (if (if x ∈ keywords then "_" ++ x else x) ∈ variablenames then 1 else 0) = 2
        ↔ (x ∈ keywords ∧ "_" ++ x ∈ variablenames)) := by
  by_cases hk : x ∈ keywords
  · by_cases hv : "_" ++ x ∈ variablenames <;> simp [hk, hv]
  · by_cases hv : x ∈ variablenames <;> simp [hk, hv]

/-- Claim C25: the keyword check changes nothing it should not.  If none of
the seven checked names is in the keyword list or in the list of ProtoGen
variable names, the data members are unchanged and no warning is emitted; in
every case `support`, `typeName`, `title`, `comment`, `encodedLength` and
`dependsOnCompare` are unchanged, and a checked name that is in neither list
is unchanged (so a name changes only if it is in a list). -/
theorem keyword_check_frame (keywords variablenames : List String) (e : EncodableData) :
    ((∀ x ∈ [e.name, e.array, e.variableArray, e.array2d, e.variable2dArray, e.dependsOn,
          e.dependsOnValue], x ∉ keywords ∧ x ∉ variablenames) →
        checkAgainstKeywords keywords variablenames e = (e, []))
      ∧ (checkAgainstKeywords keywords variablenames e).1.support = e.support
      ∧ (checkAgainstKeywords keywords variablenames e).1.typeName = e.typeName
      ∧ (checkAgainstKeywords keywords variablenames e).1.title = e.title
      ∧ (checkAgainstKeywords keywords variablenames e).1.comment = e.comment
      ∧ (checkAgainstKeywords keywords variablenames e).1.encodedLength = e.encodedLength
      ∧ (checkAgainstKeywords keywords variablenames e).1.dependsOnCompare = e.dependsOnCompare
      ∧ (e.name ∉ keywords → e.name ∉ variablenames → (checkAgainstKeywords keywords variablenames e).1.name = e.name)
      ∧ (e.array ∉ keywords → e.array ∉ variablenames → (checkAgainstKeywords keywords variablenames e).1.array = e.array)
      ∧ (e.variableArray ∉ keywords → e.variableArray ∉ variablenames → (checkAgainstKeywords keywords variablenames e).1.variableArray = e.variableArray)
      ∧ (e.array2d ∉ keywords → e.array2d ∉ variablenames → (checkAgainstKeywords keywords variablenames e).1.array2d = e.array2d)
      ∧ (e.variable2dArray ∉ keywords → e.variable2dArray ∉ variablenames → (checkAgainstKeywords keywords variablenames e).1.variable2dArray = e.variable2dArray)
      ∧ (e.dependsOn ∉ keywords → e.dependsOn ∉ variablenames → (checkAgainstKeywords keywords variablenames e).1.dependsOn = e.dependsOn)
      ∧ (e.dependsOnValue ∉ keywords → e.dependsOnValue ∉ variablenames → (checkAgainstKeywords keywords variablenames e).1.dependsOnValue = e.dependsOnValue) := by
  refine ⟨checkAgainstKeywords_of_not_mem keywords variablenames e, rfl, rfl, rfl, rfl, rfl,
    rfl, ?_, ?_, ?_, ?_, ?_, ?_, ?_⟩
  · intro h1 h2; simp [checkAgainstKeywords, h1, h2]
  · intro h1 h2; simp [checkAgainstKeywords, h1, h2]
  · intro h1 h2; simp [checkAgainstKeywords, h1, h2]
  · intro h1 h2; simp [checkAgainstKeywords, h1, h2]
  · intro h1 h2; simp [checkAgainstKeywords, h1, h2]
  · intro h1 h2; simp [checkAgainstKeywords, h1, h2]
  · intro h1 h2; simp [checkAgainstKeywords, h1, h2]

/-- Witness for `keyword_check_frame`: the sample data named `int` keeps its
type name, and its `variableArray` named `count`, which is in neither sample
list, is unchanged. -/
theorem keyword_check_frame_witness :
    (checkAgainstKeywords sampleKeywords sampleVariablenames sampleKeywordData).1.typeName
        = "uint8_t"
      ∧ (checkAgainstKeywords sampleKeywords sampleVariablenames
          sampleKeywordData).1.variableArray = "count" :=
  ⟨(keyword_check_frame sampleKeywords sampleVariablenames sampleKeywordData).2.2.1,
    (keyword_check_frame sampleKeywords sampleVariablenames sampleKeywordData).2.2.2.2.2.2.2.2.2.1
      (by decide) (by decide)⟩

/-- Claim C26: for arbitrary lists, after the keyword check each of the seven
checked names is its old value with `k` underscores prepended, where `k` is 0,
1 or 2, and is 2 exactly when the old value is in the keyword list and `_`
followed by the old value is in the list of ProtoGen variable names; the
number of warnings emitted is the sum of the seven `k`. -/
theorem keyword_check_underscores_and_warnings (keywords variablenames : List String)
    (e : EncodableData) :
    ∃ k1 k2 k3 k4 k5 k6 k7 : Nat,
      ((k1 = 0 ∧ (checkAgainstKeywords keywords variablenames e).1.name = e.name
            ∨ k1 = 1 ∧ (checkAgainstKeywords keywords variablenames e).1.name = "_" ++ e.name
            ∨ k1 = 2 ∧ (checkAgainstKeywords keywords variablenames e).1.name = "_" ++ ("_" ++ e.name))
          ∧ (k1 = 2 ↔ (e.name ∈ keywords ∧ "_" ++ e.name ∈ variablenames)))
        ∧ ((k2 = 0 ∧ (checkAgainstKeywords keywords variablenames e).1.array = e.array
            ∨ k2 = 1 ∧ (checkAgainstKeywords keywords variablenames e).1.array = "_" ++ e.array
            ∨ k2 = 2 ∧ (checkAgainstKeywords keywords variablenames e).1.array = "_" ++ ("_" ++ e.array))
          ∧ (k2 = 2 ↔ (e.array ∈ keywords ∧ "_" ++ e.array ∈ variablenames)))
        ∧ ((k3 = 0 ∧ (checkAgainstKeywords keywords variablenames e).1.variableArray = e.variableArray
            ∨ k3 = 1 ∧ (checkAgainstKeywords keywords variablenames e).1.variableArray = "_" ++ e.variableArray
            ∨ k3 = 2 ∧ (checkAgainstKeywords keywords variablenames e).1.variableArray = "_" ++ ("_" ++ e.variableArray))
          ∧ (k3 = 2 ↔ (e.variableArray ∈ keywords ∧ "_" ++ e.variableArray ∈ variablenames)))
        ∧ ((k4 = 0 ∧ (checkAgainstKeywords keywords variablenames e).1.array2d = e.array2d
            ∨ k4 = 1 ∧ (checkAgainstKeywords keywords variablenames e).1.array2d = "_" ++ e.array2d
            ∨ k4 = 2 ∧ (checkAgainstKeywords keywords variablenames e).1.array2d = "_" ++ ("_" ++ e.array2d))
          ∧ (k4 = 2 ↔ (e.array2d ∈ keywords ∧ "_" ++ e.array2d ∈ variablenames)))
        ∧ ((k5 = 0 ∧ (checkAgainstKeywords keywords variablenames e).1.variable2dArray = e.variable2dArray
            ∨ k5 = 1 ∧ (checkAgainstKeywords keywords variablenames e).1.variable2dArray = "_" ++ e.variable2dArray
            ∨ k5 = 2 ∧ (checkAgainstKeywords keywords variablenames e).1.variable2dArray = "_" ++ ("_" ++ e.variable2dArray))
          ∧ (k5 = 2 ↔ (e.variable2dArray ∈ keywords ∧ "_" ++ e.variable2dArray ∈ variablenames)))
        ∧ ((k6 = 0 ∧ (checkAgainstKeywords keywords variablenames e).1.dependsOn = e.dependsOn
            ∨ k6 = 1 ∧ (checkAgainstKeywords keywords variablenames e).1.dependsOn = "_" ++ e.dependsOn
            ∨ k6 = 2 ∧ (checkAgainstKeywords keywords variablenames e).1.dependsOn = "_" ++ ("_" ++ e.dependsOn))
          ∧ (k6 = 2 ↔ (e.dependsOn ∈ keywords ∧ "_" ++ e.dependsOn ∈ variablenames)))
        ∧ ((k7 = 0 ∧ (checkAgainstKeywords keywords variablenames e).1.dependsOnValue = e.dependsOnValue
            ∨ k7 = 1 ∧ (checkAgainstKeywords keywords variablenames e).1.dependsOnValue = "_" ++ e.dependsOnValue
            ∨ k7 = 2 ∧ (checkAgainstKeywords keywords variablenames e).1.dependsOnValue = "_" ++ ("_" ++ e.dependsOnValue))
          ∧ (k7 = 2 ↔ (e.dependsOnValue ∈ keywords ∧ "_" ++ e.dependsOnValue ∈ variablenames)))
        ∧ (checkAgainstKeywords keywords variablenames e).2.length = k1 + k2 + k3 + k4 + k5 + k6 + k7 := by
  refine ⟨((if e.name ∈ keywords then 1 else 0) + (if (if e.name ∈ keywords then "_" ++ e.name else e.name) ∈ variablenames then 1 else 0)), ((if e.array ∈ keywords then 1 else 0) + (if (if e.array ∈ keywords then "_" ++ e.array else e.array) ∈ variablenames then 1 else 0)), ((if e.variableArray ∈ keywords then 1 else 0) + (if (if e.variableArray ∈ keywords then "_" ++ e.variableArray else e.variableArray) ∈ variablenames then 1 else 0)), ((if e.array2d ∈ keywords then 1 else 0) + (if (if e.array2d ∈ keywords then "_" ++ e.array2d else e.array2d) ∈ variablenames then 1 else 0)), ((if e.variable2dArray ∈ keywords then 1 else 0) + (if (if e.variable2dArray ∈ keywords then "_" ++ e.variable2dArray else e.variable2dArray) ∈ variablenames then 1 else 0)), ((if e.dependsOn ∈ keywords then 1 else 0) + (if (if e.dependsOn ∈ keywords then "_" ++ e.dependsOn else e.dependsOn) ∈ variablenames then 1 else 0)), ((if e.dependsOnValue ∈ keywords then 1 else 0) + (if (if e.dependsOnValue ∈ keywords then "_" ++ e.dependsOnValue else e.dependsOnValue) ∈ variablenames then 1 else 0)), ?_⟩
  have hr := renamed_underscore_count keywords variablenames
  refine ⟨?_, ?_, ?_, ?_, ?_, ?_, ?_, ?_⟩
  · simpa only [checkAgainstKeywords, checkName_fst] using hr e.name
  · simpa only [checkAgainstKeywords, checkName_fst] using hr e.array
  · simpa only [checkAgainstKeywords, checkName_fst] using hr e.variableArray
  · simpa only [checkAgainstKeywords, checkName_fst] using hr e.array2d
  · simpa only [checkAgainstKeywords, checkName_fst] using hr e.variable2dArray
  · simpa only [checkAgainstKeywords, checkName_fst] using hr e.dependsOn
  · simpa only [checkAgainstKeywords, checkName_fst] using hr e.dependsOnValue
  · simp only [checkAgainstKeywords, checkName_fst, checkName_snd, List.length_append,
      length_optional_message, List.length_nil]
    omega

/-- Witness for `keyword_check_underscores_and_warnings`: on the sample data
the name `int` gets one underscore, the array bound `_pg_i` one, and two
warnings are emitted. -/
theorem keyword_check_underscores_and_warnings_witness :
    (checkAgainstKeywords sampleKeywords sampleVariablenames sampleKeywordData).2.length = 2
      ∧ ∃ k1 k2 k3 k4 k5 k6 k7 : Nat,
        (checkAgainstKeywords sampleKeywords sampleVariablenames sampleKeywordData).2.length
          = k1 + k2 + k3 + k4 + k5 + k6 + k7 :=
  ⟨by decide,
    (keyword_check_underscores_and_warnings sampleKeywords sampleVariablenames
      sampleKeywordData).imp (fun _ h1 => h1.imp (fun _ h2 => h2.imp (fun _ h3 =>
        h3.imp (fun _ h4 => h4.imp (fun _ h5 => h5.imp (fun _ h6 => h6.imp (fun _ h7 =>
          h7.2.2.2.2.2.2.2)))))))⟩

end KeywordFrame

/-! ## The repeat description of the documentation -/

section Repeats

open Encodable

/-- Claim C27: when the enumeration lookup returns the empty string for every
name (a 2D array being an array), the repeat description is `1` for a field
that is not an array; `array` for a 1D array without `variableArray`;
`variableArray`, then `, up to ` and `array` for a 1D array with
`variableArray`; `array*array2d` for a 2D array with neither variable bound;
and `variableArray*variable2dArray`, then `, up to ` and `array*array2d` for a
2D array with both variable bounds. -/
theorem repeats_without_enumerations (lookup : String → String) (e : Encodable)
    (hlookup : ∀ value : String, lookup value = "")
    (h2d : e.is2dArray = true → e.isArray = true) :
    (e.isArray = false → getRepeatsDocumentationDetails lookup e = "1")
      ∧ (e.isArray = true → e.is2dArray = false → e.variableArray = "" →
          getRepeatsDocumentationDetails lookup e = e.array)
      ∧ (e.isArray = true → e.is2dArray = false → e.variableArray ≠ "" →
          getRepeatsDocumentationDetails lookup e = e.variableArray ++ ", up to " ++ e.array)
      ∧ (e.is2dArray = true → e.variableArray = "" → e.variable2dArray = "" →
          getRepeatsDocumentationDetails lookup e = e.array ++ "*" ++ e.array2d)
      ∧ (e.is2dArray = true → e.variableArray ≠ "" → e.variable2dArray ≠ "" →
          getRepeatsDocumentationDetails lookup e
            = e.variableArray ++ "*" ++ e.variable2dArray ++ ", up to " ++ e.array ++ "*"
              ++ e.array2d) := by
  refine ⟨?_, ?_, ?_, ?_, ?_⟩
  · intro hA
    have h2 : e.is2dArray = false := by
      cases h : e.is2dArray
      · rfl
      · rw [h2d h] at hA; exact absurd hA (by decide)
    simp [getRepeatsDocumentationDetails, hA, h2]
  · intro hA h2 hV
    simp [getRepeatsDocumentationDetails, hlookup, hA, h2, hV]
  · intro hA h2 hV
    simp [getRepeatsDocumentationDetails, hlookup, hA, h2, hV]
  · intro h2 hV hV2
    simp [getRepeatsDocumentationDetails, hlookup, h2d h2, h2, hV, hV2]
  · intro h2 hV hV2
    simp [getRepeatsDocumentationDetails, hlookup, h2d h2, h2, hV, hV2]

/-- Witness for `repeats_without_enumerations`: without enumerations, the 2D
array `data[10][4]` with the variable bounds `rows` and `cols` repeats
`rows*cols, up to 10*4`. -/
theorem repeats_without_enumerations_witness :
    (∀ value : String, sampleNoEnumLookup value = "")
      ∧ ((sampleArray true true "rows" "cols").is2dArray = true
          → (sampleArray true true "rows" "cols").isArray = true)
      ∧ getRepeatsDocumentationDetails sampleNoEnumLookup (sampleArray true true "rows" "cols")
          = "rows*cols, up to 10*4" :=
  ⟨fun _ => rfl, by decide,
    ((repeats_without_enumerations sampleNoEnumLookup (sampleArray true true "rows" "cols")
      (fun _ => rfl) (by decide)).2.2.2.2 (by decide) (by decide) (by decide)).trans
      (by decide)⟩

/-- Claim C28 fails on the code: for the 1D array `data` with fixed count `10`
and variable count `N`, where the lookup finds `N` in the enumeration
`Sizes`, the variable count is rendered verbatim (`N, up to 10`) and not as
the link `[N](#Sizes)`; the same name used as the fixed count is rendered as
the link. -/
theorem repeats_variable_count_not_linked :
    sampleEnumLookup "N" = "Sizes"
      ∧ getRepeatsDocumentationDetails sampleEnumLookup (sampleArray true false "N" "")
          = "N, up to 10"
      ∧ getRepeatsDocumentationDetails sampleEnumLookup (sampleArray true false "N" "")
          ≠ "[N](#Sizes), up to 10"
      ∧ getRepeatsDocumentationDetails sampleEnumLookup
          { sampleArray true false "" "" with array := "N" } = "[N](#Sizes)" := by
  decide

/-- A non-empty `variableArray` or `variable2dArray` is never looked up: the
lookup for that name is made only when the name is empty, so a non-empty
variable count is rendered verbatim whatever the enumeration lookup
returns. -/
theorem repeats_variable_count_verbatim (lookup : String → String) (e : Encodable)
    (hA : e.isArray = true) (h2 : e.is2dArray = false) (hV : e.variableArray ≠ "") :
    ∃ fixed : String,
      getRepeatsDocumentationDetails lookup e = e.variableArray ++ ", up to " ++ fixed := by
  by_cases hl : lookup e.array = ""
  · exact ⟨e.array, by simp [getRepeatsDocumentationDetails, hA, h2, hV, hl]⟩
  · exact ⟨"[" ++ e.array ++ "](#" ++ lookup e.array ++ ")",
      by simp [getRepeatsDocumentationDetails, hA, h2, hV, hl]⟩

/-- Claim C29 fails on the code: for the 2D array `data[10][4]` with only the
variable bound `cols` of the second dimension, the repeat description is
`*cols, up to 10*4`, whose first factor is empty; with only the variable
bound `rows` of the first dimension it is `rows*, up to 10*4`, whose second
factor is empty. -/
theorem repeats_mixed_bounds_empty_factor :
    getRepeatsDocumentationDetails sampleNoEnumLookup (sampleArray true true "" "cols")
        = "" ++ "*" ++ "cols" ++ ", up to " ++ "10" ++ "*" ++ "4"
      ∧ getRepeatsDocumentationDetails sampleNoEnumLookup (sampleArray true true "" "cols")
        = "*cols, up to 10*4"
      ∧ getRepeatsDocumentationDetails sampleNoEnumLookup (sampleArray true true "rows" "")
        = "rows*, up to 10*4" := by
  decide

end Repeats

end ProtoGen
